import Mathlib

/-!
Verification of the Lexus showroom scene core.

Shallow embedding of the configuration store (store.service.ts), the entity
synchronizer, the simulation loop and the audio binder (three-scene service),
with theorems settling the frozen specification claims.  Numeric values use
exact rationals; JavaScript Map objects become association lists keyed by
entity id; asynchronous load completions become explicit handler functions.
-/

/-- JS clamp written as Math.max lo (Math.min hi x), as in the source. -/
def jsClamp (lo hi x : ℚ) : ℚ := max lo (min hi x)

/-- THREE.MathUtils.lerp: (1 - t) * x + t * y.  Note t is not clamped. -/
def lerp (x y t : ℚ) : ℚ := (1 - t) * x + t * y

/-- A 3D vector with exact rational coordinates. -/
structure Vec3 where
  x : ℚ
  y : ℚ
  z : ℚ
deriving DecidableEq, Repr

def Vec3.zero : Vec3 := ⟨0, 0, 0⟩

-- ---------------------------------------------------------------------------
-- Association maps: the embedding of JS Map<string, T>.
-- ---------------------------------------------------------------------------

/-- Lookup in an association list, first matching key wins (JS Map.get). -/
def mapLookup {α : Type} (m : List (String × α)) (k : String) : Option α :=
  (m.find? (fun kv => kv.1 = k)).map (·.2)

/-- JS Map.set: replace the entry if the key exists, otherwise append. -/
def mapInsert {α : Type} (m : List (String × α)) (k : String) (v : α) :
    List (String × α) :=
  if (m.find? (fun kv => kv.1 = k)).isSome then
    m.map (fun kv => if kv.1 = k then (k, v) else kv)
  else m ++ [(k, v)]

/-- JS Map.delete. -/
def mapErase {α : Type} (m : List (String × α)) (k : String) :
    List (String × α) :=
  m.filter (fun kv => kv.1 ≠ k)

/-- The key set of a live map. -/
def mapKeys {α : Type} (m : List (String × α)) : List String := m.map (·.1)

-- ---------------------------------------------------------------------------
-- Configuration store (store.service.ts)
-- ---------------------------------------------------------------------------

/-- One operation on the pending-load counter of the store. -/
inductive LoadingOp where
  | inc
  | dec
deriving DecidableEq, Repr

/-- incrementLoading: loadingCount.update (c => c + 1). -/
def incrementLoading (c : ℤ) : ℤ := c + 1

/-- decrementLoading: loadingCount.update (c => Math.max 0 (c - 1)). -/
def decrementLoading (c : ℤ) : ℤ := max 0 (c - 1)

/-- isLoading: computed (() => loadingCount () > 0). -/
def isLoading (c : ℤ) : Bool := 0 < c

def applyLoadingOp (c : ℤ) : LoadingOp → ℤ
  | .inc => incrementLoading c
  | .dec => decrementLoading c

/-- The counter after a sequence of increment and decrement calls,
starting from the initial signal value 0. -/
def runLoadingOps (ops : List LoadingOp) : ℤ :=
  ops.foldl applyLoadingOp 0

/-- CarConfig (data.types.ts), restricted to the fields the scene core reads.
modelUrl is optional in the source type. -/
structure CarConfig where
  id : String
  name : String
  color : String
  underglowColor : String
  roughness : ℚ
  metalness : ℚ
  modelUrl : Option String
deriving DecidableEq, Repr

/-- EnvironmentItem (data.types.ts).  url is a plain string; the empty
string stands for a falsy url. -/
structure EnvironmentItem where
  id : String
  name : String
  url : String
  assetId : String
  scale : ℚ
  position : Vec3
deriving DecidableEq, Repr

/-- SceneObject (data.types.ts). -/
structure SceneObject where
  id : String
  name : String
  url : String
  position : Vec3
  rotation : Vec3
  scale : Vec3
deriving DecidableEq, Repr

/-- The slice of AppConfig that removeEnvironment touches. -/
structure EnvConfig where
  environments : List EnvironmentItem
  activeEnvironmentId : Option String
deriving DecidableEq, Repr

/-- JS array indexing fleet[i]: undefined for negative or out-of-range i. -/
def jsIndex {α : Type} (l : List α) (i : ℤ) : Option α :=
  if i < 0 then none else l.get? i.toNat

/-- activeCar = computed (() => config.fleet[activeCarIndex] || config.fleet[0]).
none models the undefined value the JS expression can produce. -/
def activeCar (fleet : List CarConfig) (activeCarIndex : ℤ) : Option CarConfig :=
  (jsIndex fleet activeCarIndex).orElse (fun _ => fleet.head?)

/-- The per-frame loop reads store.activeCar().id each tick (animate).
Reading .id of undefined is a TypeError, modelled as none. -/
def animateActiveCarId (fleet : List CarConfig) (activeCarIndex : ℤ) :
    Option String :=
  (activeCar fleet activeCarIndex).map (·.id)

/-- newEnvs[0]?.id || null from removeEnvironment: the id of the first
remaining environment, except that a falsy (empty) id collapses to null. -/
def firstEnvIdOrNull (envs : List EnvironmentItem) : Option String :=
  match envs.head? with
  | none => none
  | some e => if e.id = "" then none else some e.id

/-- removeEnvironment (store.service.ts): filter the environment out and
rewrite activeEnvironmentId when the removed id was the active one. -/
def removeEnvironment (i : String) (c : EnvConfig) : EnvConfig :=
  let newEnvs := c.environments.filter (fun e => e.id ≠ i)
  { environments := newEnvs,
    activeEnvironmentId :=
      if c.activeEnvironmentId = some i then firstEnvIdOrNull newEnvs
      else c.activeEnvironmentId }

-- ---------------------------------------------------------------------------
-- Drive-mode input combination (animate, drive branch)
-- ---------------------------------------------------------------------------

/-- Keyboard and joystick state sampled by one drive tick. -/
structure DriveInput where
  up : Bool
  down : Bool
  left : Bool
  right : Bool
  brake : Bool
  joyX : ℚ
  joyY : ℚ
deriving DecidableEq, Repr

/-- Raw combined throttle before the clamp: (isUp?1:isDown?-1:0)+joystick.y. -/
def rawThrottle (inp : DriveInput) : ℚ :=
  (if inp.up then 1 else if inp.down then -1 else 0) + inp.joyY

/-- Throttle after Math.max(-1, Math.min(1, throttle)). -/
def throttleOf (inp : DriveInput) : ℚ := jsClamp (-1) 1 (rawThrottle inp)

/-- Raw combined steering before the clamp:
(isLeft?0.6:isRight?-0.6:0)+(joystick.x * -0.6). -/
def rawSteer (left right : Bool) (joyX : ℚ) : ℚ :=
  (if left then 3/5 else if right then -(3/5) else 0) + joyX * (-(3/5))

/-- Steering input after Math.max(-0.6, Math.min(0.6, steerInput)); this is
the value handed to the exponential steering smoother. -/
def steerInputOf (left right : Bool) (joyX : ℚ) : ℚ :=
  jsClamp (-(3/5)) (3/5) (rawSteer left right joyX)

-- ---------------------------------------------------------------------------
-- Drive-mode physics tick (animate, lines for section.id = drive)
-- ---------------------------------------------------------------------------

/-- The simulation state the drive branch of animate mutates. -/
structure DriveState where
  speed : ℚ
  steering : ℚ
  carAngle : ℚ
  posX : ℚ
  posZ : ℚ
deriving DecidableEq, Repr

/-- Speed update of one drive tick, before the boundary bounce: an explicit
brake lerps speed toward 0; otherwise throttle integrates, the result is
clamped to [-20, 80] and a 0.98 drag factor is applied. -/
def speedAfterInput (inp : DriveInput) (delta s : ℚ) : ℚ :=
  if inp.brake then lerp s 0 (delta * 2)
  else jsClamp (-20) 80 (s + throttleOf inp * 30 * delta) * (49/50)

/-- One full drive-mode tick of animate.  sinA and cosA are the values of
Math.sin(carAngle) and Math.cos(carAngle) after the angle update; they are
parameters because the embedding is over exact rationals.  mapBounds = 190;
exceeding it inverts and damps speed and skips the position update. -/
def driveTick (inp : DriveInput) (delta sinA cosA : ℚ) (st : DriveState) :
    DriveState :=
  let speed1 := speedAfterInput inp delta st.speed
  let steering1 := lerp st.steering (steerInputOf inp.left inp.right inp.joyX) (delta * 5)
  let carAngle1 :=
    if 1/10 < |speed1| then st.carAngle + speed1 * steering1 * (1/20) * delta
    else st.carAngle
  let nextX := st.posX + sinA * speed1 * delta
  let nextZ := st.posZ + cosA * speed1 * delta
  if 190 < |nextX| ∨ 190 < |nextZ| then
    { speed := speed1 * (-(1/2)), steering := steering1, carAngle := carAngle1,
      posX := st.posX, posZ := st.posZ }
  else
    { speed := speed1, steering := steering1, carAngle := carAngle1,
      posX := nextX, posZ := nextZ }

/-- The initial simulation state: speed, steering and angle start at 0. -/
def initialDriveState : DriveState := ⟨0, 0, 0, 0, 0⟩

-- ---------------------------------------------------------------------------
-- Exploded-view animation (animate, fleet-lineup branch)
-- ---------------------------------------------------------------------------

/-- Part classes assigned by analyzeCarStructure. -/
inductive PartClass where
  | body
  | hood
  | wheel
  | chassis
deriving DecidableEq, Repr

/-- One tracked subtree of the active vehicle.  analyzeCarStructure records
the original local position and rotation of every part before classifying
it, so every tracked part carries its recorded original transform. -/
structure CarPart where
  pos : Vec3
  rot : Vec3
  origPos : Vec3
  origRot : Vec3
  cls : PartClass
deriving DecidableEq, Repr

/-- explodeTarget: 1 in engineering (tech) mode, 0 in every other mode. -/
def explodeTarget (isTech : Bool) : ℚ := if isTech then 1 else 0

/-- Displacement applied while explodeFactor exceeds 0.01: body parts lift
by 1.5 v, hood parts lift and tilt, wheels splay outward along x by the sign
of their original x, chassis parts stay at their original position. -/
def applyExplode (v : ℚ) (p : CarPart) : CarPart :=
  match p.cls with
  | .body =>
    { p with pos := ⟨p.origPos.x, p.origPos.y + (3/2) * v, p.origPos.z⟩ }
  | .hood =>
    { p with pos := ⟨p.origPos.x, p.origPos.y + (6/5) * v, p.origPos.z + (1/2) * v⟩,
             rot := ⟨p.origRot.x - (1/2) * v, p.rot.y, p.rot.z⟩ }
  | .wheel =>
    let sign : ℚ := if 0 < p.origPos.x then 1 else -1
    { p with pos := ⟨p.origPos.x + sign * (4/5) * v, p.origPos.y, p.origPos.z⟩ }
  | .chassis => { p with pos := p.origPos }

/-- Snap a part exactly back to its recorded original transform. -/
def snapPart (p : CarPart) : CarPart := { p with pos := p.origPos, rot := p.origRot }

/-- One explode-animation step of a fleet-lineup tick with a resolved active
group: the factor lerps toward its target with rate delta * 3; above the
0.01 epsilon every part is displaced, at or below it outside tech mode every
tracked part snaps back to its original transform. -/
def explodeStep (isTech : Bool) (delta f : ℚ) (parts : List CarPart) :
    ℚ × List CarPart :=
  let f1 := lerp f (explodeTarget isTech) (delta * 3)
  if 1/100 < f1 then (f1, parts.map (applyExplode f1))
  else if isTech then (f1, parts)
  else (f1, parts.map snapPart)

-- ---------------------------------------------------------------------------
-- Audio binder (startEngine, stopEngine, ignition onEnded)
-- ---------------------------------------------------------------------------

/-- The audio-binder state: the engine-running flag, whether each positional
sound has a loaded buffer, whether each is playing, and whether startEngine
has armed the ignition onEnded handler. -/
structure AudioState where
  isEngineRunning : Bool
  ignitionBuffer : Bool
  engineBuffer : Bool
  ignitionPlaying : Bool
  enginePlaying : Bool
  onEndedArmed : Bool
  speed : ℚ
deriving DecidableEq, Repr

/-- startEngine: a no-op while already running; otherwise set the flag, play
the ignition one-shot when its buffer exists (arming onEnded), else fall
straight to the engine loop when only that buffer exists. -/
def startEngine (st : AudioState) : AudioState :=
  if st.isEngineRunning then st
  else
    let st1 := { st with isEngineRunning := true }
    if st1.ignitionBuffer then
      { st1 with ignitionPlaying := true, onEndedArmed := true }
    else if st1.engineBuffer then { st1 with enginePlaying := true }
    else st1

/-- stopEngine: a no-op while not running; otherwise stop both sources,
clear the running flag and zero the speed. -/
def stopEngine (st : AudioState) : AudioState :=
  if st.isEngineRunning then
    { st with enginePlaying := false, ignitionPlaying := false,
              isEngineRunning := false, speed := 0 }
  else st

/-- The ignition onEnded handler installed by startEngine: when the one-shot
ends it starts the engine loop only if the engine buffer exists, the loop is
not already playing and the engine is still flagged running. -/
def ignitionEnded (st : AudioState) : AudioState :=
  let st1 := { st with ignitionPlaying := false }
  if st1.onEndedArmed ∧ st1.engineBuffer ∧ ¬ st1.enginePlaying ∧ st1.isEngineRunning then
    { st1 with enginePlaying := true }
  else st1

-- ---------------------------------------------------------------------------
-- Entity synchronizer: environments
-- ---------------------------------------------------------------------------

/-- The placeholder group an environment id anchors.  gen is a creation
nonce standing for JS object identity: a recreated subtree gets a fresh gen.
hasModel records whether the async gltf content has been attached. -/
structure EnvAnchor where
  gen : ℕ
  scaleV : Vec3
  posV : Vec3
  hasModel : Bool
deriving DecidableEq, Repr

/-- The synchronizer state for environments: the live map plus the nonce
supply for newly created anchors. -/
structure EnvSync where
  envObjectMap : List (String × EnvAnchor)
  nextGen : ℕ
deriving DecidableEq, Repr

/-- applyEnvironmentTransform: uniform scale and position from the config. -/
def applyEnvironmentTransform (env : EnvironmentItem) (a : EnvAnchor) : EnvAnchor :=
  { a with scaleV := ⟨env.scale, env.scale, env.scale⟩, posV := env.position }

/-- loadEnvironmentModel: bail out on a falsy url; otherwise create the
anchor synchronously, apply the transform, insert it into the live map and
start the async load (content arrives later through envLoadComplete). -/
def loadEnvironmentModel (env : EnvironmentItem) (st : EnvSync) : EnvSync :=
  if env.url = "" then st
  else
    let anchor := applyEnvironmentTransform env ⟨st.nextGen, Vec3.zero, Vec3.zero, false⟩
    { envObjectMap := mapInsert st.envObjectMap env.id anchor,
      nextGen := st.nextGen + 1 }

/-- The per-item body of the second loop of syncEnvironments: a present id
only gets its transform reapplied (no url comparison), an absent id is
loaded. -/
def syncEnvStep (st : EnvSync) (env : EnvironmentItem) : EnvSync :=
  match mapLookup st.envObjectMap env.id with
  | some anchor =>
    { st with envObjectMap :=
        mapInsert st.envObjectMap env.id (applyEnvironmentTransform env anchor) }
  | none => loadEnvironmentModel env st

/-- syncEnvironments: remove the ids no longer configured, then reconcile
each configured environment. -/
def syncEnvironments (envs : List EnvironmentItem) (st : EnvSync) : EnvSync :=
  let newIds := envs.map (·.id)
  let st1 : EnvSync :=
    { st with envObjectMap := st.envObjectMap.filter (fun kv => kv.1 ∈ newIds) }
  envs.foldl syncEnvStep st1

/-- The async gltf completion of loadEnvironmentModel: it first re-checks
that the environment id is still in the live map; only then is the model
attached to the captured anchor (matched in the map by object identity). -/
def envLoadComplete (envId : String) (captured : EnvAnchor) (st : EnvSync) :
    EnvSync × EnvAnchor :=
  if (mapLookup st.envObjectMap envId).isSome then
    ({ st with envObjectMap := st.envObjectMap.map (fun kv =>
         if kv.1 = envId ∧ kv.2.gen = captured.gen then
           (kv.1, { kv.2 with hasModel := true })
         else kv) },
     { captured with hasModel := true })
  else (st, captured)

-- ---------------------------------------------------------------------------
-- Entity synchronizer: scene objects
-- ---------------------------------------------------------------------------

/-- The placeholder group of one scene object; unlike environment anchors it
records the url it was created for in userData. -/
structure SceneAnchor where
  gen : ℕ
  url : String
  posV : Vec3
  rotV : Vec3
  scaleV : Vec3
  hasModel : Bool
deriving DecidableEq, Repr

structure ObjSync where
  sceneObjectMap : List (String × SceneAnchor)
  nextGen : ℕ
deriving DecidableEq, Repr

/-- applySceneObjectTransform: position, rotation and scale from config. -/
def applySceneObjectTransform (o : SceneObject) (g : SceneAnchor) : SceneAnchor :=
  { g with posV := o.position, rotV := o.rotation, scaleV := o.scale }

/-- loadSceneObject: create the group synchronously (no url guard), record
the url in userData, apply the transform, insert, start the async load. -/
def loadSceneObject (o : SceneObject) (st : ObjSync) : ObjSync :=
  let g := applySceneObjectTransform o ⟨st.nextGen, o.url, Vec3.zero, Vec3.zero, Vec3.zero, false⟩
  { sceneObjectMap := mapInsert st.sceneObjectMap o.id g,
    nextGen := st.nextGen + 1 }

/-- The per-item body of the second loop of syncSceneObjects: a present id
whose recorded url changed is removed and reloaded; otherwise the transform
is reapplied in place. -/
def syncObjStep (st : ObjSync) (o : SceneObject) : ObjSync :=
  match mapLookup st.sceneObjectMap o.id with
  | some g =>
    if g.url ≠ o.url then
      loadSceneObject o
        { st with sceneObjectMap := mapErase st.sceneObjectMap o.id }
    else
      { st with sceneObjectMap :=
          mapInsert st.sceneObjectMap o.id (applySceneObjectTransform o g) }
  | none => loadSceneObject o st

/-- syncSceneObjects: remove the ids no longer configured, then reconcile
each configured object. -/
def syncSceneObjects (objs : List SceneObject) (st : ObjSync) : ObjSync :=
  let newIds := objs.map (·.id)
  let st1 : ObjSync :=
    { st with sceneObjectMap := st.sceneObjectMap.filter (fun kv => kv.1 ∈ newIds) }
  objs.foldl syncObjStep st1

/-- The async gltf completion of loadSceneObject, with the same liveness
re-check as the environment one. -/
def objLoadComplete (objId : String) (captured : SceneAnchor) (st : ObjSync) :
    ObjSync × SceneAnchor :=
  if (mapLookup st.sceneObjectMap objId).isSome then
    ({ st with sceneObjectMap := st.sceneObjectMap.map (fun kv =>
         if kv.1 = objId ∧ kv.2.gen = captured.gen then
           (kv.1, { kv.2 with hasModel := true })
         else kv) },
     { captured with hasModel := true })
  else (st, captured)

-- ---------------------------------------------------------------------------
-- Entity synchronizer: vehicle fleet
-- ---------------------------------------------------------------------------

/-- The scene-graph group of one vehicle; userData records the modelUrl it
was created for.  hasModel is true once content exists: immediately for the
procedural fallback, after the async load otherwise. -/
structure CarGroup where
  gen : ℕ
  modelUrl : Option String
  hasModel : Bool
deriving DecidableEq, Repr

/-- The lazily-created-and-cached material set of one vehicle id; only the
scalar paint parameters are relevant to the claims.  gen is the creation
nonce: a transform-only update keeps the same material objects. -/
structure CarMats where
  gen : ℕ
  color : String
  metalness : ℚ
  roughness : ℚ
deriving DecidableEq, Repr

/-- The fleet synchronizer state: the live car map, the per-id material
cache, and the shared creation-nonce supply. -/
structure FleetSync where
  carMap : List (String × CarGroup)
  materialsMap : List (String × CarMats)
  nextGen : ℕ
deriving DecidableEq, Repr

/-- The removal predicate of the first loop of syncFleet: a live id is
dropped when its config disappeared or when its recorded modelUrl differs
from the configured one. -/
def carShouldRemove (fleet : List CarConfig) (k : String) (g : CarGroup) : Bool :=
  match fleet.find? (fun c => c.id = k) with
  | none => true
  | some c => g.modelUrl ≠ c.modelUrl

/-- The removal phase of syncFleet: removed ids leave the car map and their
material sets are disposed and deleted. -/
def syncFleetRemove (fleet : List CarConfig) (st : FleetSync) : FleetSync :=
  { st with
    carMap := st.carMap.filter (fun kv => ¬ carShouldRemove fleet kv.1 kv.2),
    materialsMap := st.materialsMap.filter (fun kv =>
      match mapLookup st.carMap kv.1 with
      | some g => ¬ carShouldRemove fleet kv.1 g
      | none => true) }

/-- getOrCreateMaterials: return the cached set for the id, or clone the
base materials (white paint, metalness 0.7, roughness 0.2) and cache them. -/
def getOrCreateMaterials (k : String) (st : FleetSync) : CarMats × FleetSync :=
  match mapLookup st.materialsMap k with
  | some m => (m, st)
  | none =>
    let m : CarMats := { gen := st.nextGen, color := "#ffffff",
                         metalness := 7/10, roughness := 1/5 }
    (m, { st with materialsMap := mapInsert st.materialsMap k m,
                  nextGen := st.nextGen + 1 })

/-- createCarGroup: record the configured modelUrl in userData, insert the
group into the map, then either start the async model load or build the
procedural fallback synchronously. -/
def createCarGroup (c : CarConfig) (st : FleetSync) : FleetSync :=
  let g : CarGroup := { gen := st.nextGen, modelUrl := c.modelUrl,
                        hasModel := c.modelUrl.isNone }
  { st with carMap := mapInsert st.carMap c.id g, nextGen := st.nextGen + 1 }

/-- The per-config body of the second loop of syncFleet: refresh the scalar
paint parameters on the cached material set, and create the group if the id
is not live yet. -/
def syncFleetStep (st : FleetSync) (c : CarConfig) : FleetSync :=
  let r := getOrCreateMaterials c.id st
  let mats1 : CarMats :=
    { r.1 with color := c.color, metalness := c.metalness,
               roughness := c.roughness }
  let st2 : FleetSync :=
    { r.2 with materialsMap := mapInsert r.2.materialsMap c.id mats1 }
  if (mapLookup st2.carMap c.id).isSome then st2
  else createCarGroup c st2

/-- syncFleet: the removal phase followed by the per-config reconciliation.
The active-car postprocessing (structure analysis, underglow and audio
reattachment) does not touch the live maps and is modelled separately. -/
def syncFleet (fleet : List CarConfig) (st : FleetSync) : FleetSync :=
  fleet.foldl syncFleetStep (syncFleetRemove fleet st)

/-- The result of the async model completion of createCarGroup. -/
structure CarLoadResult where
  state : FleetSync
  group : CarGroup
  analyzedGen : Option ℕ
deriving DecidableEq, Repr

/-- The async gltf completion of createCarGroup.  Unlike the environment and
scene-object completions it performs no liveness re-check: it always attaches
the model to its captured group, re-creates the material cache entry for its
id when it was disposed, and re-runs analyzeCarStructure on the captured
group whenever the active car id equals its captured config id.  analyzedGen
reports the gen of the group the part classification was rebuilt from, if
any. -/
def carLoadComplete (c : CarConfig) (captured : CarGroup)
    (activeCarId : Option String) (st : FleetSync) : CarLoadResult :=
  let st1 := (getOrCreateMaterials c.id st).2
  let captured1 := { captured with hasModel := true }
  let st2 : FleetSync :=
    { st1 with carMap := st1.carMap.map (fun kv =>
        if kv.1 = c.id ∧ kv.2.gen = captured.gen then
          (kv.1, { kv.2 with hasModel := true })
        else kv) }
  { state := st2, group := captured1,
    analyzedGen := if activeCarId = some c.id then some captured.gen else none }

-- ---------------------------------------------------------------------------
-- Concrete configurations used by counterexamples and witnesses
-- ---------------------------------------------------------------------------

/-- An environment whose url is hydrated, id e1. -/
def envA : EnvironmentItem := ⟨"e1", "hall", "a.glb", "asset1", 1, Vec3.zero⟩

/-- The same environment id with a different url. -/
def envB : EnvironmentItem := ⟨"e1", "hall", "b.glb", "asset2", 1, Vec3.zero⟩

/-- An environment with a falsy (empty) url. -/
def envNoUrl : EnvironmentItem := ⟨"e1", "hall", "", "", 1, Vec3.zero⟩

/-- An environment whose id is the empty string. -/
def envBlankId : EnvironmentItem := ⟨"", "hall", "c.glb", "asset3", 1, Vec3.zero⟩

/-- The config state exercising removeEnvironment on the active id. -/
def cfgTwoEnvs : EnvConfig := ⟨[envA, envBlankId], some "e1"⟩

/-- A scene object, and the same id under another url. -/
def objA : SceneObject := ⟨"o1", "crate", "a.glb", Vec3.zero, Vec3.zero, ⟨1, 1, 1⟩⟩

def objB : SceneObject := ⟨"o1", "crate", "b.glb", Vec3.zero, Vec3.zero, ⟨1, 1, 1⟩⟩

/-- A vehicle config with a model url, and the same id under another url. -/
def carA : CarConfig := ⟨"c1", "LFA", "#ff9900", "#ff8800", 1/10, 3/5, some "a.glb"⟩

def carB : CarConfig := ⟨"c1", "LFA", "#ff9900", "#ff8800", 1/10, 3/5, some "b.glb"⟩

/-- Empty synchronizer states. -/
def emptyEnvSync : EnvSync := ⟨[], 0⟩

def emptyObjSync : ObjSync := ⟨[], 0⟩

def emptyFleetSync : FleetSync := ⟨[], [], 0⟩

/-- Keyboard throttle only: w held, nothing else, joystick centered. -/
def inpThrottle : DriveInput := ⟨true, false, false, false, false, 0, 0⟩

/-- Brake held, joystick centered. -/
def inpBrake : DriveInput := ⟨false, false, false, false, true, 0, 0⟩

/-- A tracked body part displaced away from its recorded original. -/
def partBody : CarPart := ⟨⟨0, 2, 0⟩, ⟨0, 0, 0⟩, ⟨0, 1/2, 0⟩, ⟨0, 0, 0⟩, .body⟩

/-- An idle audio state with both buffers loaded. -/
def audioIdle : AudioState := ⟨false, true, true, false, false, false, 0⟩

/-- A fleet-sync state in which id c1 is not live. -/
def deadFleetState : FleetSync := ⟨[], [], 5⟩

/-- The car group captured by the stale load closure of id c1. -/
def staleCarGroup : CarGroup := ⟨0, some "a.glb", false⟩

-- ---------------------------------------------------------------------------
-- Generic lemmas about the Map embedding
-- ---------------------------------------------------------------------------

theorem mapLookup_nil {α : Type} (k : String) :
    mapLookup ([] : List (String × α)) k = none := rfl

theorem mapLookup_cons {α : Type} (a : String × α) (m : List (String × α))
    (k : String) :
    mapLookup (a :: m) k = if a.1 = k then some a.2 else mapLookup m k := by
  by_cases h : a.1 = k <;> simp [mapLookup, List.find?_cons, h]

theorem mapLookup_insert_self {α : Type} (m : List (String × α)) (k : String)
    (v : α) : mapLookup (mapInsert m k v) k = some v := by
  unfold mapInsert
  by_cases h : (m.find? (fun kv => kv.1 = k)).isSome
  · rw [if_pos h]
    induction m with
    | nil => simp at h
    | cons a t ih =>
      by_cases ha : a.1 = k
      · simp [mapLookup_cons, ha]
      · rw [List.map_cons, if_neg ha, mapLookup_cons, if_neg ha]
        apply ih
        simpa [List.find?_cons, ha] using h
  · rw [if_neg h]
    induction m with
    | nil => simp [mapLookup_cons]
    | cons a t ih =>
      rw [List.find?_cons] at h
      by_cases ha : a.1 = k
      · simp [ha] at h
      · rw [List.cons_append, mapLookup_cons, if_neg ha]
        apply ih
        simpa [ha] using h

theorem mapLookup_insert_ne {α : Type} (m : List (String × α)) (k j : String)
    (v : α) (h : j ≠ k) : mapLookup (mapInsert m k v) j = mapLookup m j := by
  unfold mapInsert
  by_cases hf : (m.find? (fun kv => kv.1 = k)).isSome
  · rw [if_pos hf]
    clear hf
    induction m with
    | nil => rfl
    | cons a t ih =>
      by_cases ha : a.1 = k
      · rw [List.map_cons, if_pos ha, mapLookup_cons, mapLookup_cons,
            if_neg (fun hk => h hk.symm), if_neg (by rw [ha]; exact fun hk => h hk.symm)]
        exact ih
      · rw [List.map_cons, if_neg ha, mapLookup_cons, mapLookup_cons]
        by_cases haj : a.1 = j
        · rw [if_pos haj, if_pos haj]
        · rw [if_neg haj, if_neg haj]
          exact ih
  · rw [if_neg hf]
    clear hf
    induction m with
    | nil =>
      rw [List.nil_append, mapLookup_cons, if_neg (Ne.symm h), mapLookup_nil]
    | cons a t ih =>
      rw [List.cons_append, mapLookup_cons, mapLookup_cons]
      by_cases haj : a.1 = j
      · rw [if_pos haj, if_pos haj]
      · rw [if_neg haj, if_neg haj]
        exact ih

theorem mapLookup_erase_self {α : Type} (m : List (String × α)) (k : String) :
    mapLookup (mapErase m k) k = none := by
  unfold mapErase
  induction m with
  | nil => rfl
  | cons a t ih =>
    by_cases ha : a.1 = k
    · simpa [List.filter_cons, ha] using ih
    · simpa [List.filter_cons, ha, mapLookup_cons] using ih

theorem mapLookup_erase_ne {α : Type} (m : List (String × α)) (k j : String)
    (h : j ≠ k) : mapLookup (mapErase m k) j = mapLookup m j := by
  unfold mapErase
  induction m with
  | nil => rfl
  | cons a t ih =>
    by_cases ha : a.1 = k
    · rw [List.filter_cons, if_neg (by simp [ha]), mapLookup_cons,
          if_neg (by rw [ha]; exact fun hk => h hk.symm)]
      exact ih
    · rw [List.filter_cons, if_pos (by simp [ha]), mapLookup_cons, mapLookup_cons]
      by_cases haj : a.1 = j
      · rw [if_pos haj, if_pos haj]
      · rw [if_neg haj, if_neg haj]
        exact ih

theorem mapLookup_filter_mem {α : Type} (m : List (String × α))
    (ids : List String) (k : String) :
    mapLookup (m.filter (fun kv => kv.1 ∈ ids)) k =
      if k ∈ ids then mapLookup m k else none := by
  induction m with
  | nil => by_cases h : k ∈ ids <;> simp [h, mapLookup_nil]
  | cons a t ih =>
    by_cases hmem : a.1 ∈ ids
    · rw [List.filter_cons, if_pos (by simpa using hmem), mapLookup_cons]
      by_cases haj : a.1 = k
      · have hk2 : k ∈ ids := haj ▸ hmem
        rw [if_pos haj, mapLookup_cons, if_pos haj, if_pos hk2]
      · rw [if_neg haj, ih, mapLookup_cons, if_neg haj]
    · rw [List.filter_cons, if_neg (by simpa using hmem), ih]
      by_cases hk : k ∈ ids
      · have haj : ¬ (a.1 = k) := by
          intro he
          exact hmem (he ▸ hk)
        rw [if_pos hk, if_pos hk, mapLookup_cons, if_neg haj]
      · rw [if_neg hk, if_neg hk]

theorem mapLookup_filter_none {α : Type} (m : List (String × α))
    (p : String × α → Bool) (k : String) (h : mapLookup m k = none) :
    mapLookup (m.filter p) k = none := by
  induction m with
  | nil => rfl
  | cons a t ih =>
    rw [mapLookup_cons] at h
    by_cases haj : a.1 = k
    · rw [if_pos haj] at h
      exact absurd h (by simp)
    · rw [if_neg haj] at h
      by_cases hp : p a
      · rw [List.filter_cons, if_pos hp, mapLookup_cons, if_neg haj]
        exact ih h
      · rw [List.filter_cons, if_neg (by simpa using hp)]
        exact ih h

theorem mapLookup_filter_of_nodup {α : Type} (m : List (String × α))
    (p : String × α → Bool) (k : String) (g : α)
    (hnd : (mapKeys m).Nodup) (h : mapLookup m k = some g) :
    mapLookup (m.filter p) k = if p (k, g) then some g else none := by
  induction m with
  | nil => simp [mapLookup_nil] at h
  | cons a t ih =>
    rw [mapKeys, List.map_cons, List.nodup_cons] at hnd
    rw [mapLookup_cons] at h
    by_cases haj : a.1 = k
    · rw [if_pos haj] at h
      have ha : a = (k, g) := by
        cases a with
        | mk a1 a2 => simp at haj h; exact Prod.ext haj h
      have ht : mapLookup t k = none := by
        subst ha
        by_contra hne
        cases him : mapLookup t k with
        | none => exact hne him
        | some v =>
          have : k ∈ mapKeys t := by
            unfold mapLookup at him
            cases hf : t.find? (fun kv => kv.1 = k) with
            | none => rw [hf] at him; simp at him
            | some kv =>
              have := List.find?_some hf
              have hmem := List.mem_of_find?_eq_some hf
              simp at this
              exact this ▸ (List.mem_map.mpr ⟨kv, hmem, rfl⟩)
          exact hnd.1 this
      subst ha
      by_cases hp : p (k, g)
      · rw [List.filter_cons, if_pos (by simpa using hp), mapLookup_cons,
            if_pos rfl, if_pos hp]
      · rw [List.filter_cons, if_neg (by simpa using hp), if_neg hp]
        exact mapLookup_filter_none t p k ht
    · rw [if_neg haj] at h
      by_cases hp : p a
      · rw [List.filter_cons, if_pos hp, mapLookup_cons, if_neg haj]
        exact ih hnd.2 h
      · rw [List.filter_cons, if_neg (by simpa using hp)]
        exact ih hnd.2 h

-- ---------------------------------------------------------------------------
-- C9: the pending-load counter
-- ---------------------------------------------------------------------------

theorem loadingOps_foldl_nonneg (ops : List LoadingOp) (c : ℤ) (hc : 0 ≤ c) :
    0 ≤ ops.foldl applyLoadingOp c := by
  induction ops generalizing c with
  | nil => exact hc
  | cons op rest ih =>
    apply ih
    cases op with
    | inc => simp only [applyLoadingOp, incrementLoading]; linarith
    | dec => exact le_max_left 0 _

/-- C9: after any interleaving of incrementLoading and decrementLoading calls
the counter is never negative (decrement clamps at zero), and isLoading is
true exactly when the counter is strictly positive. -/
theorem C9_loadingCount_invariant (ops : List LoadingOp) :
    0 ≤ runLoadingOps ops ∧
      (isLoading (runLoadingOps ops) = true ↔ 0 < runLoadingOps ops) := by
  refine ⟨loadingOps_foldl_nonneg ops 0 le_rfl, ?_⟩
  simp [isLoading]

-- ---------------------------------------------------------------------------
-- C10: removeEnvironment
-- ---------------------------------------------------------------------------

theorem envFilter_length_of_mem (l : List EnvironmentItem) (i : String)
    (hnd : (l.map (·.id)).Nodup) (e : EnvironmentItem) (he : e ∈ l)
    (hei : e.id = i) :
    (l.filter (fun x => x.id ≠ i)).length + 1 = l.length := by
  induction l with
  | nil => cases he
  | cons a t ih =>
    rw [List.map_cons, List.nodup_cons] at hnd
    rcases List.mem_cons.mp he with rfl | hmem
    · rw [List.filter_cons, if_neg (by simp [hei])]
      have hft : t.filter (fun x => x.id ≠ i) = t := by
        apply List.filter_eq_self.mpr
        intro b hb
        simp only [decide_eq_true_eq]
        intro hbi
        exact hnd.1 (List.mem_map.mpr ⟨b, hb, by rw [hbi, hei]⟩)
      rw [hft, List.length_cons]
    · have hide : e.id ∈ t.map (·.id) := List.mem_map.mpr ⟨e, hmem, rfl⟩
      have hai : ¬ (a.id = i) := by
        intro hai
        exact hnd.1 (by rw [hai, ← hei]; exact hide)
      rw [List.filter_cons, if_pos (by simp [hai]), List.length_cons,
          List.length_cons]
      have := ih hnd.2 hmem
      omega

/-- C10 counterexample: with environments e1 and one whose id is the empty
string, removing the active e1 leaves a nonempty list whose first element has
the empty id, yet activeEnvironmentId becomes null rather than that id
(the JS expression newEnvs[0]?.id || null collapses a falsy id to null). -/
theorem C10_removeEnvironment_cex :
    (removeEnvironment "e1" cfgTwoEnvs).environments = [envBlankId] ∧
      (removeEnvironment "e1" cfgTwoEnvs).activeEnvironmentId = none := by
  constructor <;> rfl

/-- C10 amended: removeEnvironment removes exactly the environment with the
given id (ids assumed distinct) and leaves the others unchanged; it rewrites
activeEnvironmentId only when the removed id was active, in which case the
new value is the id of the first remaining environment, except that it is
null when none remain or when that first id is the empty string. -/
theorem C10_removeEnvironment_amended (c : EnvConfig) (i : String)
    (hnd : (c.environments.map (·.id)).Nodup) :
    (∀ e : EnvironmentItem,
        e ∈ (removeEnvironment i c).environments ↔
          e ∈ c.environments ∧ e.id ≠ i) ∧
    ((∃ e ∈ c.environments, e.id = i) →
        (removeEnvironment i c).environments.length + 1 =
          c.environments.length) ∧
    (c.activeEnvironmentId ≠ some i →
        (removeEnvironment i c).activeEnvironmentId = c.activeEnvironmentId) ∧
    (c.activeEnvironmentId = some i →
        ((removeEnvironment i c).environments = [] →
            (removeEnvironment i c).activeEnvironmentId = none) ∧
        (∀ e rest, (removeEnvironment i c).environments = e :: rest →
            (removeEnvironment i c).activeEnvironmentId =
              if e.id = "" then none else some e.id)) := by
  refine ⟨?_, ?_, ?_, ?_⟩
  · intro e
    simp [removeEnvironment, List.mem_filter]
  · rintro ⟨e, he, hei⟩
    simpa [removeEnvironment] using
      envFilter_length_of_mem c.environments i hnd e he hei
  · intro h
    simp [removeEnvironment, h]
  · intro h
    constructor
    · intro hemp
      simp only [removeEnvironment] at hemp ⊢
      rw [if_pos h, hemp]
      rfl
    · intro e rest hcons
      simp only [removeEnvironment] at hcons ⊢
      rw [if_pos h, hcons]
      rfl

/-- Witness for C10: a concrete removal of the active environment from a
one-environment config drops the list length from 1 to 0. -/
theorem C10_removeEnvironment_amended_witness :
    (([envA].map (·.id)).Nodup) ∧
      (removeEnvironment "e1" ⟨[envA], some "e1"⟩).environments.length + 1 =
        ([envA] : List EnvironmentItem).length :=
  ⟨by decide,
   (C10_removeEnvironment_amended ⟨[envA], some "e1"⟩ "e1" (by decide)).2.1
     ⟨envA, List.mem_singleton.mpr rfl, rfl⟩⟩

-- ---------------------------------------------------------------------------
-- C3: the resolved active vehicle
-- ---------------------------------------------------------------------------

/-- C3 counterexample: with every vehicle removed the computed activeCar is
undefined, and the per-frame read of its id in animate has no value to read
(a TypeError at runtime), contradicting the claim that the resolved active
vehicle is always a valid entity or a defined none state that never crashes
the consumer. -/
theorem C3_activeCar_cex :
    activeCar [] 0 = none ∧ animateActiveCarId [] 0 = none := ⟨rfl, rfl⟩

/-- C3 amended: while at least one vehicle remains, activeCar resolves to a
member of the fleet (the one at activeCarIndex, or the first when the index
no longer resolves) and the per-frame id read succeeds; with an empty fleet
activeCar is undefined and the per-frame read crashes. -/
theorem C3_activeCar_amended (fleet : List CarConfig) (idx : ℤ)
    (h : fleet ≠ []) :
    ∃ car, activeCar fleet idx = some car ∧ car ∈ fleet ∧
      animateActiveCarId fleet idx = some car.id ∧
      (jsIndex fleet idx = none → some car = fleet.head?) := by
  cases hj : jsIndex fleet idx with
  | some car =>
    refine ⟨car, ?_, ?_, ?_, ?_⟩
    · simp [activeCar, hj, Option.orElse]
    · unfold jsIndex at hj
      by_cases hneg : idx < 0
      · rw [if_pos hneg] at hj
        cases hj
      · rw [if_neg hneg] at hj
        exact List.get?_mem hj
    · simp [animateActiveCarId, activeCar, hj, Option.orElse]
    · simp [hj]
  | none =>
    cases fleet with
    | nil => exact absurd rfl h
    | cons a t =>
      refine ⟨a, ?_, List.mem_cons_self a t, ?_, fun _ => rfl⟩
      · simp [activeCar, hj, Option.orElse]
      · simp [animateActiveCarId, activeCar, hj, Option.orElse]

/-- Witness for C3: a one-car fleet with an out-of-range index resolves to
that car. -/
theorem C3_activeCar_amended_witness :
    (([carA] : List CarConfig) ≠ []) ∧
      ∃ car, activeCar [carA] 7 = some car ∧ car ∈ [carA] ∧
        animateActiveCarId [carA] 7 = some car.id ∧
        (jsIndex [carA] 7 = none → some car = ([carA] : List CarConfig).head?) :=
  ⟨by decide, C3_activeCar_amended [carA] 7 (by decide)⟩

-- ---------------------------------------------------------------------------
-- C8: combined steering input
-- ---------------------------------------------------------------------------

theorem abs_jsClamp_le (hi x : ℚ) (h : 0 ≤ hi) : |jsClamp (-hi) hi x| ≤ hi := by
  rw [abs_le]
  exact ⟨le_max_left _ _, max_le (by linarith) (min_le_left _ _)⟩

/-- C8 counterexample: joystick x = 1 plus keyboard left yields combined
steering input 0, not the configured maximum 0.6 — the two sources have
opposite signs (joystick x is multiplied by -0.6) and cancel exactly. -/
theorem C8_steering_cex :
    steerInputOf true false 1 = 0 ∧ (0 : ℚ) ≠ 3/5 := by
  constructor
  · norm_num [steerInputOf, rawSteer, jsClamp, max_def, min_def]
  · norm_num

/-- C8 amended: joystick x = 1 with keyboard left cancels to 0; the clamp to
the maximum magnitude is instead exhibited by joystick x = -1 with keyboard
left, whose raw sum 1.2 is clamped to 0.6; in general the combined steering
input never exceeds magnitude 0.6. -/
theorem C8_steering_amended :
    steerInputOf true false 1 = 0 ∧
    rawSteer true false (-1) = 6/5 ∧
    steerInputOf true false (-1) = 3/5 ∧
    ∀ (l r : Bool) (jx : ℚ), |steerInputOf l r jx| ≤ 3/5 := by
  refine ⟨?_, ?_, ?_, ?_⟩
  · norm_num [steerInputOf, rawSteer, jsClamp, max_def, min_def]
  · norm_num [rawSteer]
  · norm_num [steerInputOf, rawSteer, jsClamp, max_def, min_def]
  · intro l r jx
    exact abs_jsClamp_le (3/5) _ (by norm_num)

-- ---------------------------------------------------------------------------
-- C7: rapid ignition toggles
-- ---------------------------------------------------------------------------

/-- C7: starting from a stopped engine with an ignition clip configured, the
sequence ignition-on, ignition-off, one-shot-completion never starts the
engine loop: the completion handler re-checks the engine-running flag, which
the second toggle cleared. -/
theorem C7_ignition_toggle (st : AudioState)
    (hrun : st.isEngineRunning = false) (hplay : st.enginePlaying = false)
    (hbuf : st.ignitionBuffer = true) :
    (startEngine st).enginePlaying = false ∧
    (stopEngine (startEngine st)).enginePlaying = false ∧
    (ignitionEnded (stopEngine (startEngine st))).enginePlaying = false := by
  simp [startEngine, stopEngine, ignitionEnded, hrun, hplay, hbuf]

/-- Witness for C7 at a concrete idle audio state with both buffers loaded. -/
theorem C7_ignition_toggle_witness :
    audioIdle.isEngineRunning = false ∧ audioIdle.enginePlaying = false ∧
      audioIdle.ignitionBuffer = true ∧
      (ignitionEnded (stopEngine (startEngine audioIdle))).enginePlaying = false :=
  ⟨rfl, rfl, rfl, (C7_ignition_toggle audioIdle rfl rfl rfl).2.2⟩

-- ---------------------------------------------------------------------------
-- C4: driving speed bounds and braking
-- ---------------------------------------------------------------------------

theorem jsClamp_mem (lo hi y : ℚ) (h : lo ≤ hi) :
    lo ≤ jsClamp lo hi y ∧ jsClamp lo hi y ≤ hi :=
  ⟨le_max_left _ _, max_le h (min_le_left _ _)⟩

theorem driveTick_speed_cases (inp : DriveInput) (delta sinA cosA : ℚ)
    (st : DriveState) :
    (driveTick inp delta sinA cosA st).speed = speedAfterInput inp delta st.speed ∨
    (driveTick inp delta sinA cosA st).speed =
      speedAfterInput inp delta st.speed * (-(1/2)) := by
  simp only [driveTick]
  split
  · right; rfl
  · left; rfl

theorem speedAfterInput_bounds (inp : DriveInput) (delta s : ℚ)
    (hd0 : 0 ≤ delta) (hd1 : delta ≤ 1/2) (hlo : -40 ≤ s) (hhi : s ≤ 80) :
    -40 ≤ speedAfterInput inp delta s ∧ speedAfterInput inp delta s ≤ 80 := by
  unfold speedAfterInput
  by_cases hb : inp.brake = true
  · rw [if_pos hb]
    unfold lerp
    constructor
    · nlinarith [mul_nonneg (show (0:ℚ) ≤ s + 40 by linarith)
        (show (0:ℚ) ≤ 1 - delta * 2 by linarith)]
    · nlinarith [mul_nonneg (show (0:ℚ) ≤ 80 - s by linarith)
        (show (0:ℚ) ≤ 1 - delta * 2 by linarith)]
  · rw [if_neg hb]
    have hx := jsClamp_mem (-20) 80 (s + throttleOf inp * 30 * delta) (by norm_num)
    constructor <;> nlinarith [hx.1, hx.2]

theorem speedAfterInput_brake_abs (inp : DriveInput) (delta s : ℚ)
    (hb : inp.brake = true) (hd0 : 0 ≤ delta) (hd1 : delta ≤ 1/2) :
    |speedAfterInput inp delta s| ≤ |s| ∧
      (s ≠ 0 → 0 < delta → |speedAfterInput inp delta s| < |s|) := by
  unfold speedAfterInput
  rw [if_pos hb]
  unfold lerp
  have heq : (1 - delta * 2) * s + delta * 2 * 0 = (1 - delta * 2) * s := by ring
  rw [heq, abs_mul, abs_of_nonneg (show (0:ℚ) ≤ 1 - delta * 2 by linarith)]
  constructor
  · exact mul_le_of_le_one_left (abs_nonneg s) (by linarith)
  · intro hs hdp
    exact mul_lt_of_lt_one_left (abs_pos.mpr hs) (by linarith)

/-- C4 counterexample: from the initial drive state, one tick with full
throttle and delta = 3 reaches the boundary; the bounce multiplies the
clamped, dragged speed 78.4 by -0.5 after the clamp, ending the tick at
speed -39.2, outside [-20, 80]. -/
theorem C4_speed_cex :
    (driveTick inpThrottle 3 0 1 initialDriveState).speed = -(196/5) ∧
      ¬ ((-20 : ℚ) ≤ -(196/5)) := by
  constructor
  · norm_num [driveTick, speedAfterInput, throttleOf, rawThrottle, jsClamp,
      lerp, initialDriveState, inpThrottle, steerInputOf, rawSteer,
      max_def, min_def, abs]
  · norm_num

/-- C4 amended: with per-tick delta at most 0.5, the speed stays in the
wider invariant interval [-40, 80] (the boundary bounce can leave [-20, 80]
down to -39.2 because it halves and negates the speed after the clamp), and
while the brake is held the magnitude of the speed never increases and
strictly decreases whenever it is nonzero and delta is positive. -/
theorem C4_speed_amended (inp : DriveInput) (delta sinA cosA : ℚ)
    (st : DriveState) (hd0 : 0 ≤ delta) (hd1 : delta ≤ 1/2)
    (hlo : -40 ≤ st.speed) (hhi : st.speed ≤ 80) :
    ((-40 ≤ (driveTick inp delta sinA cosA st).speed ∧
        (driveTick inp delta sinA cosA st).speed ≤ 80)) ∧
    (inp.brake = true →
        |(driveTick inp delta sinA cosA st).speed| ≤ |st.speed| ∧
        (st.speed ≠ 0 → 0 < delta →
          |(driveTick inp delta sinA cosA st).speed| < |st.speed|)) := by
  have hbase := speedAfterInput_bounds inp delta st.speed hd0 hd1 hlo hhi
  rcases driveTick_speed_cases inp delta sinA cosA st with hcase | hcase
  · constructor
    · rw [hcase]; exact hbase
    · intro hb
      have habs := speedAfterInput_brake_abs inp delta st.speed hb hd0 hd1
      rw [hcase]
      exact habs
  · constructor
    · rw [hcase]
      constructor <;> nlinarith [hbase.1, hbase.2]
    · intro hb
      have habs := speedAfterInput_brake_abs inp delta st.speed hb hd0 hd1
      rw [hcase, abs_mul]
      have h12 : |(-(1/2) : ℚ)| = 1/2 := by norm_num [abs]
      rw [h12]
      constructor
      · nlinarith [habs.1, abs_nonneg (speedAfterInput inp delta st.speed)]
      · intro hs hdp
        have := habs.2 hs hdp
        nlinarith [abs_nonneg (speedAfterInput inp delta st.speed)]

/-- Witness for C4: a braking tick with delta 1/4 from speed 10. -/
theorem C4_speed_amended_witness :
    (0 : ℚ) ≤ 1/4 ∧ (1/4 : ℚ) ≤ 1/2 ∧
      (-40 : ℚ) ≤ (⟨10, 0, 0, 0, 0⟩ : DriveState).speed ∧
      (⟨10, 0, 0, 0, 0⟩ : DriveState).speed ≤ 80 ∧
      -40 ≤ (driveTick inpBrake (1/4) 0 1 ⟨10, 0, 0, 0, 0⟩).speed ∧
      (driveTick inpBrake (1/4) 0 1 ⟨10, 0, 0, 0, 0⟩).speed ≤ 80 :=
  ⟨by norm_num, by norm_num, by norm_num, by norm_num,
   (C4_speed_amended inpBrake (1/4) 0 1 ⟨10, 0, 0, 0, 0⟩ (by norm_num)
      (by norm_num) (by norm_num) (by norm_num)).1.1,
   (C4_speed_amended inpBrake (1/4) 0 1 ⟨10, 0, 0, 0, 0⟩ (by norm_num)
      (by norm_num) (by norm_num) (by norm_num)).1.2⟩

-- ---------------------------------------------------------------------------
-- C5: explode factor and snap-back
-- ---------------------------------------------------------------------------

theorem explodeStep_fst (isTech : Bool) (delta f : ℚ) (parts : List CarPart) :
    (explodeStep isTech delta f parts).1 =
      lerp f (explodeTarget isTech) (delta * 3) := by
  simp only [explodeStep]
  split
  · rfl
  · split <;> rfl

theorem lerp_abs_sub_le (x T t : ℚ) (h0 : 0 ≤ t) (h1 : t ≤ 1) :
    |lerp x T t - T| ≤ |x - T| := by
  have heq : lerp x T t - T = (1 - t) * (x - T) := by unfold lerp; ring
  rw [heq, abs_mul, abs_of_nonneg (show (0:ℚ) ≤ 1 - t by linarith)]
  exact mul_le_of_le_one_left (abs_nonneg _) (by linarith)

/-- C5 counterexample: an engineering tick with delta = 1 moves the factor
from 0 to 3, overshooting past the target 1 and ending farther from it than
before — the lerp rate delta * 3 is not clamped, so the update is not
monotone toward the target for every tick. -/
theorem C5_explode_cex :
    (explodeStep true 1 0 []).1 = 3 ∧
      ¬ |(explodeStep true 1 0 []).1 - explodeTarget true| ≤
          |(0 : ℚ) - explodeTarget true| := by
  have h3 : (explodeStep true 1 0 []).1 = 3 := by
    rw [explodeStep_fst]
    norm_num [lerp, explodeTarget]
  refine ⟨h3, ?_⟩
  rw [h3]
  show ¬ |(3 : ℚ) - explodeTarget true| ≤ |(0 : ℚ) - explodeTarget true|
  rw [show explodeTarget true = 1 from rfl,
      show (3 : ℚ) - 1 = 2 by norm_num, show (0 : ℚ) - 1 = -1 by norm_num,
      abs_of_nonneg (by norm_num : (0:ℚ) ≤ 2), abs_of_nonpos (by norm_num : (-1:ℚ) ≤ 0)]
  norm_num

/-- C5 amended: on fleet-lineup ticks (mode not drive or walk, menu closed,
active group resolved) with delta * 3 at most 1, the explode factor moves
monotonically toward 1 in engineering mode and toward 0 otherwise; and any
such tick that ends with the factor at or below the 0.01 epsilon outside
engineering mode leaves every tracked part exactly at its recorded original
position and rotation.  In drive, walk and menu ticks the factor and the
parts are simply not updated. -/
theorem C5_explode_amended (isTech : Bool) (delta f : ℚ) (parts : List CarPart)
    (hd0 : 0 ≤ delta) (hd1 : delta * 3 ≤ 1) :
    |(explodeStep isTech delta f parts).1 - explodeTarget isTech| ≤
        |f - explodeTarget isTech| ∧
    (isTech = false → (explodeStep isTech delta f parts).1 ≤ 1/100 →
      ∀ p ∈ (explodeStep isTech delta f parts).2,
        p.pos = p.origPos ∧ p.rot = p.origRot) := by
  constructor
  · rw [explodeStep_fst]
    exact lerp_abs_sub_le f _ (delta * 3)
      (mul_nonneg hd0 (by norm_num)) hd1
  · intro ht hle
    subst ht
    have hf1 : ¬ (1/100 < lerp f (explodeTarget false) (delta * 3)) := by
      rw [explodeStep_fst] at hle
      linarith
    intro p hp
    simp only [explodeStep, if_neg hf1, Bool.false_eq_true, if_false] at hp
    rcases List.mem_map.mp hp with ⟨q, _, rfl⟩
    exact ⟨rfl, rfl⟩

/-- Witness for C5: a showroom tick with delta 1/3 from factor 0 keeps the
factor at the target 0 and holds the snapped part at its original. -/
theorem C5_explode_amended_witness :
    (0 : ℚ) ≤ 1/3 ∧ (1/3 : ℚ) * 3 ≤ 1 ∧
      |(explodeStep false (1/3) 0 [partBody]).1 - explodeTarget false| ≤
        |(0 : ℚ) - explodeTarget false| :=
  ⟨by norm_num, by norm_num,
   (C5_explode_amended false (1/3) 0 [partBody] (by norm_num) (by norm_num)).1⟩

-- ---------------------------------------------------------------------------
-- Further generic map lemmas
-- ---------------------------------------------------------------------------

theorem mapLookup_some_mem {α : Type} (m : List (String × α)) (k : String)
    (v : α) (h : mapLookup m k = some v) : (k, v) ∈ m := by
  induction m with
  | nil => simp [mapLookup_nil] at h
  | cons a t ih =>
    rw [mapLookup_cons] at h
    by_cases ha : a.1 = k
    · rw [if_pos ha] at h
      injection h with h2
      have hav : ((k, v) : String × α) = a := Prod.ext ha.symm h2.symm
      rw [hav]
      exact List.mem_cons_self _ _
    · rw [if_neg ha] at h
      exact List.mem_cons_of_mem a (ih h)

theorem mapLookup_filter_some {α : Type} (m : List (String × α))
    (p : String × α → Bool) (k : String) (v : α)
    (h : mapLookup (m.filter p) k = some v) : (k, v) ∈ m ∧ p (k, v) = true := by
  have hmem := mapLookup_some_mem _ k v h
  rw [List.mem_filter] at hmem
  exact hmem

theorem mapLookup_map_keyFix {α : Type} (m : List (String × α))
    (F : String × α → String × α) (k : String)
    (hkey : ∀ kv, (F kv).1 = kv.1) :
    mapLookup (m.map F) k =
      match mapLookup m k with
      | some v => some (F (k, v)).2
      | none => none := by
  induction m with
  | nil => rfl
  | cons a t ih =>
    rw [List.map_cons, mapLookup_cons, mapLookup_cons]
    by_cases ha : a.1 = k
    · rw [if_pos (by rw [hkey a]; exact ha), if_pos ha]
      have hka : ((k, a.2) : String × α) = a := Prod.ext ha.symm rfl
      show some (F a).2 = some (F (k, a.2)).2
      rw [hka]
    · rw [if_neg (by rw [hkey a]; exact ha), if_neg ha, ih]

-- ---------------------------------------------------------------------------
-- Environment synchronizer lemmas
-- ---------------------------------------------------------------------------

theorem syncEnvStep_lookup_ne (st : EnvSync) (env : EnvironmentItem)
    (k : String) (h : k ≠ env.id) :
    mapLookup (syncEnvStep st env).envObjectMap k =
      mapLookup st.envObjectMap k := by
  unfold syncEnvStep
  cases hm : mapLookup st.envObjectMap env.id with
  | some a => exact mapLookup_insert_ne _ _ _ _ h
  | none =>
    unfold loadEnvironmentModel
    by_cases hu : env.url = ""
    · rw [if_pos hu]
    · rw [if_neg hu]
      exact mapLookup_insert_ne _ _ _ _ h

theorem syncEnvStep_isSome_self (st : EnvSync) (env : EnvironmentItem)
    (h : env.url ≠ "") :
    (mapLookup (syncEnvStep st env).envObjectMap env.id).isSome := by
  unfold syncEnvStep
  cases hm : mapLookup st.envObjectMap env.id with
  | some a => rw [mapLookup_insert_self]; rfl
  | none =>
    unfold loadEnvironmentModel
    rw [if_neg h]
    rw [mapLookup_insert_self]
    rfl

theorem syncEnvStep_isSome_mono (st : EnvSync) (env : EnvironmentItem)
    (k : String) (h : (mapLookup st.envObjectMap k).isSome) :
    (mapLookup (syncEnvStep st env).envObjectMap k).isSome := by
  by_cases hk : k = env.id
  · subst hk
    unfold syncEnvStep
    cases hm : mapLookup st.envObjectMap env.id with
    | some a => rw [mapLookup_insert_self]; rfl
    | none => rw [hm] at h; simp at h
  · rw [syncEnvStep_lookup_ne st env k hk]
    exact h

theorem syncEnvFold_lookup_ne (envs : List EnvironmentItem) (st : EnvSync)
    (k : String) (h : k ∉ envs.map (·.id)) :
    mapLookup ((envs.foldl syncEnvStep st).envObjectMap) k =
      mapLookup st.envObjectMap k := by
  induction envs generalizing st with
  | nil => rfl
  | cons e rest ih =>
    rw [List.map_cons, List.mem_cons, not_or] at h
    rw [List.foldl_cons, ih _ h.2, syncEnvStep_lookup_ne st e k h.1]

theorem syncEnvFold_isSome_mono (envs : List EnvironmentItem) (st : EnvSync)
    (k : String) (h : (mapLookup st.envObjectMap k).isSome) :
    (mapLookup ((envs.foldl syncEnvStep st).envObjectMap) k).isSome := by
  induction envs generalizing st with
  | nil => exact h
  | cons e rest ih =>
    rw [List.foldl_cons]
    exact ih _ (syncEnvStep_isSome_mono st e k h)

theorem syncEnvFold_isSome_iff (envs : List EnvironmentItem) (st : EnvSync)
    (k : String) (hurl : ∀ e ∈ envs, e.url ≠ "") :
    (mapLookup ((envs.foldl syncEnvStep st).envObjectMap) k).isSome ↔
      (mapLookup st.envObjectMap k).isSome ∨ k ∈ envs.map (·.id) := by
  induction envs generalizing st with
  | nil => simp
  | cons e rest ih =>
    rw [List.foldl_cons, List.map_cons]
    by_cases hk : k = e.id
    · subst hk
      constructor
      · intro _
        right
        exact List.mem_cons_self _ _
      · intro _
        exact syncEnvFold_isSome_mono rest _ e.id
          (syncEnvStep_isSome_self st e (hurl e (List.mem_cons_self _ _)))
    · rw [ih (syncEnvStep st e) (fun x hx => hurl x (List.mem_cons_of_mem e hx)),
          syncEnvStep_lookup_ne st e k hk]
      constructor
      · rintro (h | h)
        · exact Or.inl h
        · exact Or.inr (List.mem_cons_of_mem _ h)
      · rintro (h | h)
        · exact Or.inl h
        · rcases List.mem_cons.mp h with h | h
          · exact absurd h hk
          · exact Or.inr h

theorem syncEnvironments_isSome_iff (envs : List EnvironmentItem)
    (st : EnvSync) (k : String) (hurl : ∀ e ∈ envs, e.url ≠ "") :
    (mapLookup (syncEnvironments envs st).envObjectMap k).isSome ↔
      k ∈ envs.map (·.id) := by
  unfold syncEnvironments
  rw [syncEnvFold_isSome_iff envs _ k hurl]
  by_cases hk : k ∈ envs.map (·.id)
  · simp only [hk, or_true, iff_true]
  · simp only [hk, or_false, iff_false]
    rw [mapLookup_filter_mem, if_neg hk]
    simp

theorem syncEnvFold_inplace (envs : List EnvironmentItem) (st : EnvSync)
    (e : EnvironmentItem) (a : EnvAnchor)
    (hnd : (envs.map (·.id)).Nodup) (hmem : e ∈ envs)
    (hl : mapLookup st.envObjectMap e.id = some a) :
    mapLookup ((envs.foldl syncEnvStep st).envObjectMap) e.id =
      some (applyEnvironmentTransform e a) := by
  induction envs generalizing st with
  | nil => cases hmem
  | cons x rest ih =>
    rw [List.map_cons, List.nodup_cons] at hnd
    rw [List.foldl_cons]
    rcases List.mem_cons.mp hmem with rfl | hmem2
    · have hstep : mapLookup (syncEnvStep st e).envObjectMap e.id =
          some (applyEnvironmentTransform e a) := by
        unfold syncEnvStep
        rw [hl]
        exact mapLookup_insert_self _ _ _
      rw [syncEnvFold_lookup_ne rest _ e.id hnd.1, hstep]
    · have hxe : x.id ≠ e.id := by
        intro hid
        exact hnd.1 (hid ▸ List.mem_map.mpr ⟨e, hmem2, rfl⟩)
      have hl2 : mapLookup (syncEnvStep st x).envObjectMap e.id = some a := by
        rw [syncEnvStep_lookup_ne st x e.id (fun hh => hxe hh.symm)]
        exact hl
      exact ih (syncEnvStep st x) hnd.2 hmem2 hl2

theorem syncEnvironments_inplace (envs : List EnvironmentItem) (st : EnvSync)
    (e : EnvironmentItem) (a : EnvAnchor)
    (hnd : (envs.map (·.id)).Nodup) (hmem : e ∈ envs)
    (hl : mapLookup st.envObjectMap e.id = some a) :
    mapLookup (syncEnvironments envs st).envObjectMap e.id =
      some (applyEnvironmentTransform e a) := by
  unfold syncEnvironments
  apply syncEnvFold_inplace envs _ e a hnd hmem
  rw [mapLookup_filter_mem,
      if_pos (List.mem_map.mpr ⟨e, hmem, rfl⟩)]
  exact hl

-- ---------------------------------------------------------------------------
-- Scene-object synchronizer lemmas
-- ---------------------------------------------------------------------------

theorem syncObjStep_lookup_ne (st : ObjSync) (o : SceneObject) (k : String)
    (h : k ≠ o.id) :
    mapLookup (syncObjStep st o).sceneObjectMap k =
      mapLookup st.sceneObjectMap k := by
  unfold syncObjStep
  cases hm : mapLookup st.sceneObjectMap o.id with
  | some g =>
    dsimp only
    by_cases hu : g.url ≠ o.url
    · rw [if_pos hu]
      simp only [loadSceneObject]
      rw [mapLookup_insert_ne _ _ _ _ h]
      exact mapLookup_erase_ne _ _ _ h
    · rw [if_neg hu]
      exact mapLookup_insert_ne _ _ _ _ h
  | none =>
    dsimp only
    simp only [loadSceneObject]
    exact mapLookup_insert_ne _ _ _ _ h

theorem syncObjStep_isSome_self (st : ObjSync) (o : SceneObject) :
    (mapLookup (syncObjStep st o).sceneObjectMap o.id).isSome := by
  unfold syncObjStep
  cases hm : mapLookup st.sceneObjectMap o.id with
  | some g =>
    dsimp only
    by_cases hu : g.url ≠ o.url
    · rw [if_pos hu]
      simp only [loadSceneObject]
      rw [mapLookup_insert_self]
      rfl
    · rw [if_neg hu]
      rw [mapLookup_insert_self]
      rfl
  | none =>
    dsimp only
    simp only [loadSceneObject]
    rw [mapLookup_insert_self]
    rfl

theorem syncObjStep_isSome_mono (st : ObjSync) (o : SceneObject) (k : String)
    (h : (mapLookup st.sceneObjectMap k).isSome) :
    (mapLookup (syncObjStep st o).sceneObjectMap k).isSome := by
  by_cases hk : k = o.id
  · subst hk
    exact syncObjStep_isSome_self st o
  · rw [syncObjStep_lookup_ne st o k hk]
    exact h

theorem syncObjStep_nextGen_le (st : ObjSync) (o : SceneObject) :
    st.nextGen ≤ (syncObjStep st o).nextGen := by
  unfold syncObjStep
  cases hm : mapLookup st.sceneObjectMap o.id with
  | some g =>
    dsimp only
    by_cases hu : g.url ≠ o.url
    · rw [if_pos hu]
      simp only [loadSceneObject]
      exact Nat.le_succ _
    · rw [if_neg hu]
  | none =>
    dsimp only
    simp only [loadSceneObject]
    exact Nat.le_succ _

theorem syncObjFold_lookup_ne (objs : List SceneObject) (st : ObjSync)
    (k : String) (h : k ∉ objs.map (·.id)) :
    mapLookup ((objs.foldl syncObjStep st).sceneObjectMap) k =
      mapLookup st.sceneObjectMap k := by
  induction objs generalizing st with
  | nil => rfl
  | cons x rest ih =>
    rw [List.map_cons, List.mem_cons, not_or] at h
    rw [List.foldl_cons, ih _ h.2, syncObjStep_lookup_ne st x k h.1]

theorem syncObjFold_isSome_mono (objs : List SceneObject) (st : ObjSync)
    (k : String) (h : (mapLookup st.sceneObjectMap k).isSome) :
    (mapLookup ((objs.foldl syncObjStep st).sceneObjectMap) k).isSome := by
  induction objs generalizing st with
  | nil => exact h
  | cons x rest ih =>
    rw [List.foldl_cons]
    exact ih _ (syncObjStep_isSome_mono st x k h)

theorem syncObjFold_nextGen_le (objs : List SceneObject) (st : ObjSync) :
    st.nextGen ≤ (objs.foldl syncObjStep st).nextGen := by
  induction objs generalizing st with
  | nil => exact le_rfl
  | cons x rest ih =>
    rw [List.foldl_cons]
    exact le_trans (syncObjStep_nextGen_le st x) (ih _)

theorem syncObjFold_isSome_iff (objs : List SceneObject) (st : ObjSync)
    (k : String) :
    (mapLookup ((objs.foldl syncObjStep st).sceneObjectMap) k).isSome ↔
      (mapLookup st.sceneObjectMap k).isSome ∨ k ∈ objs.map (·.id) := by
  induction objs generalizing st with
  | nil => simp
  | cons x rest ih =>
    rw [List.foldl_cons, List.map_cons]
    by_cases hk : k = x.id
    · subst hk
      constructor
      · intro _
        right
        exact List.mem_cons_self _ _
      · intro _
        exact syncObjFold_isSome_mono rest _ x.id (syncObjStep_isSome_self st x)
    · rw [ih (syncObjStep st x), syncObjStep_lookup_ne st x k hk]
      constructor
      · rintro (h | h)
        · exact Or.inl h
        · exact Or.inr (List.mem_cons_of_mem _ h)
      · rintro (h | h)
        · exact Or.inl h
        · rcases List.mem_cons.mp h with h | h
          · exact absurd h hk
          · exact Or.inr h

theorem syncSceneObjects_isSome_iff (objs : List SceneObject) (st : ObjSync)
    (k : String) :
    (mapLookup (syncSceneObjects objs st).sceneObjectMap k).isSome ↔
      k ∈ objs.map (·.id) := by
  unfold syncSceneObjects
  rw [syncObjFold_isSome_iff objs _ k]
  by_cases hk : k ∈ objs.map (·.id)
  · simp only [hk, or_true, iff_true]
  · simp only [hk, or_false, iff_false]
    rw [mapLookup_filter_mem, if_neg hk]
    simp

theorem syncObjFold_inplace (objs : List SceneObject) (st : ObjSync)
    (o : SceneObject) (g : SceneAnchor)
    (hnd : (objs.map (·.id)).Nodup) (hmem : o ∈ objs)
    (hl : mapLookup st.sceneObjectMap o.id = some g) (hu : g.url = o.url) :
    mapLookup ((objs.foldl syncObjStep st).sceneObjectMap) o.id =
      some (applySceneObjectTransform o g) := by
  induction objs generalizing st with
  | nil => cases hmem
  | cons x rest ih =>
    rw [List.map_cons, List.nodup_cons] at hnd
    rw [List.foldl_cons]
    rcases List.mem_cons.mp hmem with rfl | hmem2
    · have hstep : mapLookup (syncObjStep st o).sceneObjectMap o.id =
          some (applySceneObjectTransform o g) := by
        unfold syncObjStep
        rw [hl]
        dsimp only
        rw [if_neg (fun hne => hne hu)]
        exact mapLookup_insert_self _ _ _
      rw [syncObjFold_lookup_ne rest _ o.id hnd.1, hstep]
    · have hxe : x.id ≠ o.id := by
        intro hid
        exact hnd.1 (hid ▸ List.mem_map.mpr ⟨o, hmem2, rfl⟩)
      have hl2 : mapLookup (syncObjStep st x).sceneObjectMap o.id = some g := by
        rw [syncObjStep_lookup_ne st x o.id (fun hh => hxe hh.symm)]
        exact hl
      exact ih (syncObjStep st x) hnd.2 hmem2 hl2

theorem syncSceneObjects_inplace (objs : List SceneObject) (st : ObjSync)
    (o : SceneObject) (g : SceneAnchor)
    (hnd : (objs.map (·.id)).Nodup) (hmem : o ∈ objs)
    (hl : mapLookup st.sceneObjectMap o.id = some g) (hu : g.url = o.url) :
    mapLookup (syncSceneObjects objs st).sceneObjectMap o.id =
      some (applySceneObjectTransform o g) := by
  unfold syncSceneObjects
  apply syncObjFold_inplace objs _ o g hnd hmem _ hu
  rw [mapLookup_filter_mem, if_pos (List.mem_map.mpr ⟨o, hmem, rfl⟩)]
  exact hl

theorem syncObjFold_reload (objs : List SceneObject) (st : ObjSync)
    (o : SceneObject) (g : SceneAnchor)
    (hnd : (objs.map (·.id)).Nodup) (hmem : o ∈ objs)
    (hl : mapLookup st.sceneObjectMap o.id = some g) (hu : g.url ≠ o.url) :
    ∃ g2 : SceneAnchor,
      mapLookup ((objs.foldl syncObjStep st).sceneObjectMap) o.id = some g2 ∧
      g2.url = o.url ∧ st.nextGen ≤ g2.gen := by
  induction objs generalizing st with
  | nil => cases hmem
  | cons x rest ih =>
    rw [List.map_cons, List.nodup_cons] at hnd
    rw [List.foldl_cons]
    rcases List.mem_cons.mp hmem with rfl | hmem2
    · refine ⟨applySceneObjectTransform o
        ⟨st.nextGen, o.url, Vec3.zero, Vec3.zero, Vec3.zero, false⟩, ?_, rfl, le_rfl⟩
      rw [syncObjFold_lookup_ne rest _ o.id hnd.1]
      unfold syncObjStep
      rw [hl]
      dsimp only
      rw [if_pos hu]
      simp only [loadSceneObject]
      exact mapLookup_insert_self _ _ _
    · have hxe : x.id ≠ o.id := by
        intro hid
        exact hnd.1 (hid ▸ List.mem_map.mpr ⟨o, hmem2, rfl⟩)
      have hl2 : mapLookup (syncObjStep st x).sceneObjectMap o.id = some g := by
        rw [syncObjStep_lookup_ne st x o.id (fun hh => hxe hh.symm)]
        exact hl
      rcases ih (syncObjStep st x) hnd.2 hmem2 hl2 with ⟨g2, hg2, hgu, hgen⟩
      exact ⟨g2, hg2, hgu, le_trans (syncObjStep_nextGen_le st x) hgen⟩

theorem syncSceneObjects_reload (objs : List SceneObject) (st : ObjSync)
    (o : SceneObject) (g : SceneAnchor)
    (hwf : ∀ kv ∈ st.sceneObjectMap, kv.2.gen < st.nextGen)
    (hnd : (objs.map (·.id)).Nodup) (hmem : o ∈ objs)
    (hl : mapLookup st.sceneObjectMap o.id = some g) (hu : g.url ≠ o.url) :
    ∃ g2 : SceneAnchor,
      mapLookup (syncSceneObjects objs st).sceneObjectMap o.id = some g2 ∧
      g2.url = o.url ∧ g2.gen ≠ g.gen := by
  have hggen : g.gen < st.nextGen := hwf _ (mapLookup_some_mem _ _ _ hl)
  unfold syncSceneObjects
  have hl1 : mapLookup ((⟨st.sceneObjectMap.filter
      (fun kv => kv.1 ∈ objs.map (·.id)), st.nextGen⟩ : ObjSync)).sceneObjectMap
      o.id = some g := by
    show mapLookup
      (st.sceneObjectMap.filter (fun kv => kv.1 ∈ objs.map (·.id))) o.id = some g
    rw [mapLookup_filter_mem, if_pos (List.mem_map.mpr ⟨o, hmem, rfl⟩)]
    exact hl
  rcases syncObjFold_reload objs (⟨st.sceneObjectMap.filter
      (fun kv => kv.1 ∈ objs.map (·.id)), st.nextGen⟩ : ObjSync) o g hnd hmem hl1 hu
    with ⟨g2, hg2, hgu, hgen⟩
  exact ⟨g2, hg2, hgu, (lt_of_lt_of_le hggen hgen).ne'⟩

-- ---------------------------------------------------------------------------
-- Fleet synchronizer lemmas
-- ---------------------------------------------------------------------------

theorem fleet_find_of_nodup (l : List CarConfig) (c : CarConfig)
    (hnd : (l.map (·.id)).Nodup) (hmem : c ∈ l) :
    l.find? (fun x => x.id = c.id) = some c := by
  induction l with
  | nil => cases hmem
  | cons a t ih =>
    rw [List.map_cons, List.nodup_cons] at hnd
    rcases List.mem_cons.mp hmem with rfl | hmem2
    · rw [List.find?_cons]
      simp
    · have hne : a.id ≠ c.id := by
        intro hid
        exact hnd.1 (hid ▸ List.mem_map.mpr ⟨c, hmem2, rfl⟩)
      rw [List.find?_cons]
      have hd : decide (a.id = c.id) = false := decide_eq_false hne
      rw [hd]
      exact ih hnd.2 hmem2

theorem getOrCreateMaterials_eq_some (k : String) (st : FleetSync) (m : CarMats)
    (hm : mapLookup st.materialsMap k = some m) :
    getOrCreateMaterials k st = (m, st) := by
  unfold getOrCreateMaterials
  rw [hm]

theorem getOrCreateMaterials_eq_none (k : String) (st : FleetSync)
    (hm : mapLookup st.materialsMap k = none) :
    getOrCreateMaterials k st =
      (⟨st.nextGen, "#ffffff", 7/10, 1/5⟩,
       { st with
          materialsMap :=
            mapInsert st.materialsMap k ⟨st.nextGen, "#ffffff", 7/10, 1/5⟩,
          nextGen := st.nextGen + 1 }) := by
  unfold getOrCreateMaterials
  rw [hm]

theorem syncFleetStep_carMap_ne (st : FleetSync) (c : CarConfig) (k : String)
    (h : k ≠ c.id) :
    mapLookup (syncFleetStep st c).carMap k = mapLookup st.carMap k := by
  cases hm : mapLookup st.materialsMap c.id with
  | some m =>
    simp only [syncFleetStep, getOrCreateMaterials_eq_some c.id st m hm]
    by_cases hc : (mapLookup st.carMap c.id).isSome
    · rw [if_pos hc]
    · rw [if_neg hc]
      simp only [createCarGroup]
      exact mapLookup_insert_ne _ _ _ _ h
  | none =>
    simp only [syncFleetStep, getOrCreateMaterials_eq_none c.id st hm]
    by_cases hc : (mapLookup st.carMap c.id).isSome
    · rw [if_pos hc]
    · rw [if_neg hc]
      simp only [createCarGroup]
      exact mapLookup_insert_ne _ _ _ _ h

theorem syncFleetStep_mats_ne (st : FleetSync) (c : CarConfig) (k : String)
    (h : k ≠ c.id) :
    mapLookup (syncFleetStep st c).materialsMap k =
      mapLookup st.materialsMap k := by
  cases hm : mapLookup st.materialsMap c.id with
  | some m =>
    simp only [syncFleetStep, getOrCreateMaterials_eq_some c.id st m hm]
    by_cases hc : (mapLookup st.carMap c.id).isSome
    · rw [if_pos hc]
      exact mapLookup_insert_ne _ _ _ _ h
    · rw [if_neg hc]
      simp only [createCarGroup]
      exact mapLookup_insert_ne _ _ _ _ h
  | none =>
    simp only [syncFleetStep, getOrCreateMaterials_eq_none c.id st hm]
    by_cases hc : (mapLookup st.carMap c.id).isSome
    · rw [if_pos hc]
      rw [mapLookup_insert_ne _ _ _ _ h]
      exact mapLookup_insert_ne _ _ _ _ h
    · rw [if_neg hc]
      simp only [createCarGroup]
      rw [mapLookup_insert_ne _ _ _ _ h]
      exact mapLookup_insert_ne _ _ _ _ h

theorem syncFleetStep_car_isSome_self (st : FleetSync) (c : CarConfig) :
    (mapLookup (syncFleetStep st c).carMap c.id).isSome := by
  cases hm : mapLookup st.materialsMap c.id with
  | some m =>
    simp only [syncFleetStep, getOrCreateMaterials_eq_some c.id st m hm]
    by_cases hc : (mapLookup st.carMap c.id).isSome
    · rw [if_pos hc]
      exact hc
    · rw [if_neg hc]
      simp only [createCarGroup]
      rw [mapLookup_insert_self]
      rfl
  | none =>
    simp only [syncFleetStep, getOrCreateMaterials_eq_none c.id st hm]
    by_cases hc : (mapLookup st.carMap c.id).isSome
    · rw [if_pos hc]
      exact hc
    · rw [if_neg hc]
      simp only [createCarGroup]
      rw [mapLookup_insert_self]
      rfl

theorem syncFleetStep_car_isSome_mono (st : FleetSync) (c : CarConfig)
    (k : String) (h : (mapLookup st.carMap k).isSome) :
    (mapLookup (syncFleetStep st c).carMap k).isSome := by
  by_cases hk : k = c.id
  · subst hk
    exact syncFleetStep_car_isSome_self st c
  · rw [syncFleetStep_carMap_ne st c k hk]
    exact h

theorem syncFleetStep_nextGen_le (st : FleetSync) (c : CarConfig) :
    st.nextGen ≤ (syncFleetStep st c).nextGen := by
  cases hm : mapLookup st.materialsMap c.id with
  | some m =>
    simp only [syncFleetStep, getOrCreateMaterials_eq_some c.id st m hm]
    by_cases hc : (mapLookup st.carMap c.id).isSome
    · rw [if_pos hc]
    · rw [if_neg hc]
      simp only [createCarGroup]
      exact Nat.le_succ _
  | none =>
    simp only [syncFleetStep, getOrCreateMaterials_eq_none c.id st hm]
    by_cases hc : (mapLookup st.carMap c.id).isSome
    · rw [if_pos hc]
      exact Nat.le_succ _
    · rw [if_neg hc]
      simp only [createCarGroup]
      exact le_trans (Nat.le_succ _) (Nat.le_succ _)

theorem syncFleetStep_car_kept (st : FleetSync) (c : CarConfig) (g : CarGroup)
    (hl : mapLookup st.carMap c.id = some g) :
    mapLookup (syncFleetStep st c).carMap c.id = some g := by
  have hc : (mapLookup st.carMap c.id).isSome = true := by rw [hl]; rfl
  cases hm : mapLookup st.materialsMap c.id with
  | some m =>
    simp only [syncFleetStep, getOrCreateMaterials_eq_some c.id st m hm]
    rw [if_pos hc]
    exact hl
  | none =>
    simp only [syncFleetStep, getOrCreateMaterials_eq_none c.id st hm]
    rw [if_pos hc]
    exact hl

theorem syncFleetStep_car_created (st : FleetSync) (c : CarConfig)
    (hl : mapLookup st.carMap c.id = none) :
    ∃ g2 : CarGroup,
      mapLookup (syncFleetStep st c).carMap c.id = some g2 ∧
      g2.modelUrl = c.modelUrl ∧ st.nextGen ≤ g2.gen := by
  have hc : ¬ ((mapLookup st.carMap c.id).isSome = true) := by rw [hl]; simp
  cases hm : mapLookup st.materialsMap c.id with
  | some m =>
    refine ⟨⟨st.nextGen, c.modelUrl, c.modelUrl.isNone⟩, ?_, rfl, le_rfl⟩
    simp only [syncFleetStep, getOrCreateMaterials_eq_some c.id st m hm]
    rw [if_neg hc]
    simp only [createCarGroup]
    exact mapLookup_insert_self _ _ _
  | none =>
    refine ⟨⟨st.nextGen + 1, c.modelUrl, c.modelUrl.isNone⟩, ?_, rfl, Nat.le_succ _⟩
    simp only [syncFleetStep, getOrCreateMaterials_eq_none c.id st hm]
    rw [if_neg hc]
    simp only [createCarGroup]
    exact mapLookup_insert_self _ _ _

theorem syncFleetStep_mats_self (st : FleetSync) (c : CarConfig) :
    ∃ m : CarMats,
      mapLookup (syncFleetStep st c).materialsMap c.id = some m ∧
      m.color = c.color ∧ m.metalness = c.metalness ∧ m.roughness = c.roughness ∧
      (∀ m0, mapLookup st.materialsMap c.id = some m0 → m.gen = m0.gen) := by
  cases hm : mapLookup st.materialsMap c.id with
  | some m0 =>
    refine ⟨{ m0 with color := c.color, metalness := c.metalness,
                      roughness := c.roughness }, ?_, rfl, rfl, rfl, ?_⟩
    · simp only [syncFleetStep, getOrCreateMaterials_eq_some c.id st m0 hm]
      by_cases hc : (mapLookup st.carMap c.id).isSome
      · rw [if_pos hc]
        exact mapLookup_insert_self _ _ _
      · rw [if_neg hc]
        simp only [createCarGroup]
        exact mapLookup_insert_self _ _ _
    · intro m1 hm1
      injection hm1 with hm1
      rw [hm1]
  | none =>
    refine ⟨⟨st.nextGen, c.color, c.metalness, c.roughness⟩, ?_, rfl, rfl, rfl, ?_⟩
    · simp only [syncFleetStep, getOrCreateMaterials_eq_none c.id st hm]
      by_cases hc : (mapLookup st.carMap c.id).isSome
      · rw [if_pos hc]
        exact mapLookup_insert_self _ _ _
      · rw [if_neg hc]
        simp only [createCarGroup]
        exact mapLookup_insert_self _ _ _
    · intro m1 hm1
      exact Option.noConfusion hm1

theorem syncFleetFold_car_ne (fleet : List CarConfig) (st : FleetSync)
    (k : String) (h : k ∉ fleet.map (·.id)) :
    mapLookup ((fleet.foldl syncFleetStep st).carMap) k =
      mapLookup st.carMap k := by
  induction fleet generalizing st with
  | nil => rfl
  | cons x rest ih =>
    rw [List.map_cons, List.mem_cons, not_or] at h
    rw [List.foldl_cons, ih _ h.2, syncFleetStep_carMap_ne st x k h.1]

theorem syncFleetFold_mats_ne (fleet : List CarConfig) (st : FleetSync)
    (k : String) (h : k ∉ fleet.map (·.id)) :
    mapLookup ((fleet.foldl syncFleetStep st).materialsMap) k =
      mapLookup st.materialsMap k := by
  induction fleet generalizing st with
  | nil => rfl
  | cons x rest ih =>
    rw [List.map_cons, List.mem_cons, not_or] at h
    rw [List.foldl_cons, ih _ h.2, syncFleetStep_mats_ne st x k h.1]

theorem syncFleetFold_car_isSome_mono (fleet : List CarConfig) (st : FleetSync)
    (k : String) (h : (mapLookup st.carMap k).isSome) :
    (mapLookup ((fleet.foldl syncFleetStep st).carMap) k).isSome := by
  induction fleet generalizing st with
  | nil => exact h
  | cons x rest ih =>
    rw [List.foldl_cons]
    exact ih _ (syncFleetStep_car_isSome_mono st x k h)

theorem syncFleetFold_nextGen_le (fleet : List CarConfig) (st : FleetSync) :
    st.nextGen ≤ (fleet.foldl syncFleetStep st).nextGen := by
  induction fleet generalizing st with
  | nil => exact le_rfl
  | cons x rest ih =>
    rw [List.foldl_cons]
    exact le_trans (syncFleetStep_nextGen_le st x) (ih _)

theorem syncFleetFold_car_isSome_iff (fleet : List CarConfig) (st : FleetSync)
    (k : String) :
    (mapLookup ((fleet.foldl syncFleetStep st).carMap) k).isSome ↔
      (mapLookup st.carMap k).isSome ∨ k ∈ fleet.map (·.id) := by
  induction fleet generalizing st with
  | nil => simp
  | cons x rest ih =>
    rw [List.foldl_cons, List.map_cons]
    by_cases hk : k = x.id
    · subst hk
      constructor
      · intro _
        right
        exact List.mem_cons_self _ _
      · intro _
        exact syncFleetFold_car_isSome_mono rest _ x.id
          (syncFleetStep_car_isSome_self st x)
    · rw [ih (syncFleetStep st x), syncFleetStep_carMap_ne st x k hk]
      constructor
      · rintro (h | h)
        · exact Or.inl h
        · exact Or.inr (List.mem_cons_of_mem _ h)
      · rintro (h | h)
        · exact Or.inl h
        · rcases List.mem_cons.mp h with h | h
          · exact absurd h hk
          · exact Or.inr h

theorem syncFleetFold_car_kept (fleet : List CarConfig) (st : FleetSync)
    (c : CarConfig) (g : CarGroup)
    (hnd : (fleet.map (·.id)).Nodup) (hmem : c ∈ fleet)
    (hl : mapLookup st.carMap c.id = some g) :
    mapLookup ((fleet.foldl syncFleetStep st).carMap) c.id = some g := by
  induction fleet generalizing st with
  | nil => cases hmem
  | cons x rest ih =>
    rw [List.map_cons, List.nodup_cons] at hnd
    rw [List.foldl_cons]
    rcases List.mem_cons.mp hmem with rfl | hmem2
    · rw [syncFleetFold_car_ne rest _ c.id hnd.1]
      exact syncFleetStep_car_kept st c g hl
    · have hxe : x.id ≠ c.id := by
        intro hid
        exact hnd.1 (hid ▸ List.mem_map.mpr ⟨c, hmem2, rfl⟩)
      have hl2 : mapLookup (syncFleetStep st x).carMap c.id = some g := by
        rw [syncFleetStep_carMap_ne st x c.id (fun hh => hxe hh.symm)]
        exact hl
      exact ih (syncFleetStep st x) hnd.2 hmem2 hl2

theorem syncFleetFold_car_created (fleet : List CarConfig) (st : FleetSync)
    (c : CarConfig)
    (hnd : (fleet.map (·.id)).Nodup) (hmem : c ∈ fleet)
    (hl : mapLookup st.carMap c.id = none) :
    ∃ g2 : CarGroup,
      mapLookup ((fleet.foldl syncFleetStep st).carMap) c.id = some g2 ∧
      g2.modelUrl = c.modelUrl ∧ st.nextGen ≤ g2.gen := by
  induction fleet generalizing st with
  | nil => cases hmem
  | cons x rest ih =>
    rw [List.map_cons, List.nodup_cons] at hnd
    rw [List.foldl_cons]
    rcases List.mem_cons.mp hmem with rfl | hmem2
    · rcases syncFleetStep_car_created st c hl with ⟨g2, hg2, hurl, hgen⟩
      refine ⟨g2, ?_, hurl, hgen⟩
      rw [syncFleetFold_car_ne rest _ c.id hnd.1]
      exact hg2
    · have hxe : x.id ≠ c.id := by
        intro hid
        exact hnd.1 (hid ▸ List.mem_map.mpr ⟨c, hmem2, rfl⟩)
      have hl2 : mapLookup (syncFleetStep st x).carMap c.id = none := by
        rw [syncFleetStep_carMap_ne st x c.id (fun hh => hxe hh.symm)]
        exact hl
      rcases ih (syncFleetStep st x) hnd.2 hmem2 hl2 with ⟨g2, hg2, hurl, hgen⟩
      exact ⟨g2, hg2, hurl, le_trans (syncFleetStep_nextGen_le st x) hgen⟩

theorem syncFleetFold_mats (fleet : List CarConfig) (st : FleetSync)
    (c : CarConfig)
    (hnd : (fleet.map (·.id)).Nodup) (hmem : c ∈ fleet) :
    ∃ m : CarMats,
      mapLookup ((fleet.foldl syncFleetStep st).materialsMap) c.id = some m ∧
      m.color = c.color ∧ m.metalness = c.metalness ∧ m.roughness = c.roughness ∧
      (∀ m0, mapLookup st.materialsMap c.id = some m0 → m.gen = m0.gen) := by
  induction fleet generalizing st with
  | nil => cases hmem
  | cons x rest ih =>
    rw [List.map_cons, List.nodup_cons] at hnd
    rw [List.foldl_cons]
    rcases List.mem_cons.mp hmem with rfl | hmem2
    · rcases syncFleetStep_mats_self st c with ⟨m, hm, hc1, hc2, hc3, hgen⟩
      refine ⟨m, ?_, hc1, hc2, hc3, hgen⟩
      rw [syncFleetFold_mats_ne rest _ c.id hnd.1]
      exact hm
    · have hxe : x.id ≠ c.id := by
        intro hid
        exact hnd.1 (hid ▸ List.mem_map.mpr ⟨c, hmem2, rfl⟩)
      rcases ih (syncFleetStep st x) hnd.2 hmem2 with ⟨m, hm, hc1, hc2, hc3, hgen⟩
      refine ⟨m, hm, hc1, hc2, hc3, ?_⟩
      intro m0 hm0
      apply hgen
      rw [syncFleetStep_mats_ne st x c.id (fun hh => hxe hh.symm)]
      exact hm0

-- Removal-phase lemmas

theorem carShouldRemove_false_id_mem (fleet : List CarConfig) (k : String)
    (g : CarGroup) (h : carShouldRemove fleet k g = false) :
    k ∈ fleet.map (·.id) := by
  unfold carShouldRemove at h
  cases hf : fleet.find? (fun c => c.id = k) with
  | none => rw [hf] at h; cases h
  | some c =>
    have hp := List.find?_some hf
    have hmem := List.mem_of_find?_eq_some hf
    simp only [decide_eq_true_eq] at hp
    exact hp ▸ List.mem_map.mpr ⟨c, hmem, rfl⟩

theorem syncFleetRemove_car_kept (fleet : List CarConfig) (st : FleetSync)
    (k : String) (g : CarGroup)
    (hnd : (mapKeys st.carMap).Nodup)
    (hl : mapLookup st.carMap k = some g)
    (h : carShouldRemove fleet k g = false) :
    mapLookup (syncFleetRemove fleet st).carMap k = some g := by
  unfold syncFleetRemove
  rw [mapLookup_filter_of_nodup st.carMap _ k g hnd hl]
  rw [if_pos (by simp [h])]

theorem syncFleetRemove_car_removed (fleet : List CarConfig) (st : FleetSync)
    (k : String) (g : CarGroup)
    (hnd : (mapKeys st.carMap).Nodup)
    (hl : mapLookup st.carMap k = some g)
    (h : carShouldRemove fleet k g = true) :
    mapLookup (syncFleetRemove fleet st).carMap k = none := by
  unfold syncFleetRemove
  rw [mapLookup_filter_of_nodup st.carMap _ k g hnd hl]
  rw [if_neg (by simp [h])]

theorem syncFleetRemove_mats_kept (fleet : List CarConfig) (st : FleetSync)
    (k : String) (g : CarGroup) (m : CarMats)
    (hndm : (mapKeys st.materialsMap).Nodup)
    (hlm : mapLookup st.materialsMap k = some m)
    (hlc : mapLookup st.carMap k = some g)
    (h : carShouldRemove fleet k g = false) :
    mapLookup (syncFleetRemove fleet st).materialsMap k = some m := by
  unfold syncFleetRemove
  rw [mapLookup_filter_of_nodup st.materialsMap _ k m hndm hlm]
  rw [if_pos (by simp [hlc, h])]

theorem syncFleetRemove_car_isSome_imp (fleet : List CarConfig)
    (st : FleetSync) (k : String)
    (h : (mapLookup (syncFleetRemove fleet st).carMap k).isSome) :
    k ∈ fleet.map (·.id) := by
  unfold syncFleetRemove at h
  cases hv : mapLookup
      (st.carMap.filter (fun kv => ¬ carShouldRemove fleet kv.1 kv.2)) k with
  | none => rw [hv] at h; cases h
  | some v =>
    have hfs := mapLookup_filter_some st.carMap _ k v hv
    have hp := hfs.2
    simp only [decide_eq_true_eq] at hp
    exact carShouldRemove_false_id_mem fleet k v
      (Bool.not_eq_true _ ▸ (by simpa using hp))

theorem syncFleet_car_isSome_iff (fleet : List CarConfig) (st : FleetSync)
    (k : String) :
    (mapLookup (syncFleet fleet st).carMap k).isSome ↔
      k ∈ fleet.map (·.id) := by
  unfold syncFleet
  rw [syncFleetFold_car_isSome_iff]
  constructor
  · rintro (h | h)
    · exact syncFleetRemove_car_isSome_imp fleet st k h
    · exact h
  · intro h
    exact Or.inr h

theorem syncFleet_car_kept (fleet : List CarConfig) (st : FleetSync)
    (c : CarConfig) (g : CarGroup)
    (hndf : (fleet.map (·.id)).Nodup) (hndk : (mapKeys st.carMap).Nodup)
    (hmem : c ∈ fleet)
    (hl : mapLookup st.carMap c.id = some g) (hu : g.modelUrl = c.modelUrl) :
    mapLookup (syncFleet fleet st).carMap c.id = some g := by
  have hsr : carShouldRemove fleet c.id g = false := by
    unfold carShouldRemove
    rw [fleet_find_of_nodup fleet c hndf hmem]
    simp [hu]
  unfold syncFleet
  exact syncFleetFold_car_kept fleet _ c g hndf hmem
    (syncFleetRemove_car_kept fleet st c.id g hndk hl hsr)

theorem syncFleet_reload (fleet : List CarConfig) (st : FleetSync)
    (c : CarConfig) (g : CarGroup)
    (hwf : ∀ kv ∈ st.carMap, kv.2.gen < st.nextGen)
    (hndf : (fleet.map (·.id)).Nodup) (hndk : (mapKeys st.carMap).Nodup)
    (hmem : c ∈ fleet)
    (hl : mapLookup st.carMap c.id = some g) (hu : g.modelUrl ≠ c.modelUrl) :
    ∃ g2 : CarGroup,
      mapLookup (syncFleet fleet st).carMap c.id = some g2 ∧
      g2.modelUrl = c.modelUrl ∧ g2.gen ≠ g.gen := by
  have hsr : carShouldRemove fleet c.id g = true := by
    unfold carShouldRemove
    rw [fleet_find_of_nodup fleet c hndf hmem]
    simp [hu]
  have hrem := syncFleetRemove_car_removed fleet st c.id g hndk hl hsr
  have hggen : g.gen < st.nextGen := hwf _ (mapLookup_some_mem _ _ _ hl)
  unfold syncFleet
  rcases syncFleetFold_car_created fleet (syncFleetRemove fleet st) c hndf hmem
    hrem with ⟨g2, hg2, hurl, hgen⟩
  exact ⟨g2, hg2, hurl, (lt_of_lt_of_le hggen hgen).ne'⟩

theorem syncFleet_mats_kept (fleet : List CarConfig) (st : FleetSync)
    (c : CarConfig) (g : CarGroup) (m0 : CarMats)
    (hndf : (fleet.map (·.id)).Nodup)
    (hndm : (mapKeys st.materialsMap).Nodup) (hmem : c ∈ fleet)
    (hl : mapLookup st.carMap c.id = some g) (hu : g.modelUrl = c.modelUrl)
    (hlm : mapLookup st.materialsMap c.id = some m0) :
    ∃ m : CarMats,
      mapLookup (syncFleet fleet st).materialsMap c.id = some m ∧
      m.color = c.color ∧ m.metalness = c.metalness ∧ m.roughness = c.roughness ∧
      m.gen = m0.gen := by
  have hsr : carShouldRemove fleet c.id g = false := by
    unfold carShouldRemove
    rw [fleet_find_of_nodup fleet c hndf hmem]
    simp [hu]
  have hkept := syncFleetRemove_mats_kept fleet st c.id g m0 hndm hlm hl hsr
  unfold syncFleet
  rcases syncFleetFold_mats fleet (syncFleetRemove fleet st) c hndf hmem
    with ⟨m, hm, h1, h2, h3, hgen⟩
  exact ⟨m, hm, h1, h2, h3, hgen m0 hkept⟩

-- ---------------------------------------------------------------------------
-- C1: live-id convergence and transform-only idempotence
-- ---------------------------------------------------------------------------

/-- C1 counterexample: an environment configured with an empty (falsy) url is
never entered into the live map — loadEnvironmentModel returns early — so
after reconciliation the live envObjectMap id set is missing a configured id,
refuting the claimed id-set equality for the environment collection. -/
theorem C1_reconcile_cex :
    mapLookup (syncEnvironments [envNoUrl] emptyEnvSync).envObjectMap "e1" =
        none ∧
      "e1" ∈ [envNoUrl].map (·.id) := by
  exact ⟨rfl, by decide⟩

/-- C1 amended: after each reconciliation pass the live id set equals the
configured id set for the vehicle and scene-object collections always, and
for the environment collection provided every configured environment has a
nonempty url (an absent environment with a falsy url is skipped rather than
anchored).  A consecutive update with an unchanged url for a given id only
reapplies transform and material parameters to the existing subtree — the
map still holds the very same anchor (same creation nonce) with only its
transform fields rewritten. -/
theorem C1_reconcile_amended :
    (∀ (objs : List SceneObject) (st : ObjSync) (k : String),
        (mapLookup (syncSceneObjects objs st).sceneObjectMap k).isSome ↔
          k ∈ objs.map (·.id)) ∧
    (∀ (fleet : List CarConfig) (st : FleetSync) (k : String),
        (mapLookup (syncFleet fleet st).carMap k).isSome ↔
          k ∈ fleet.map (·.id)) ∧
    (∀ (envs : List EnvironmentItem) (st : EnvSync) (k : String),
        (∀ e ∈ envs, e.url ≠ "") →
        ((mapLookup (syncEnvironments envs st).envObjectMap k).isSome ↔
          k ∈ envs.map (·.id))) ∧
    (∀ (objs : List SceneObject) (st : ObjSync) (o : SceneObject)
        (g : SceneAnchor),
        (objs.map (·.id)).Nodup → o ∈ objs →
        mapLookup st.sceneObjectMap o.id = some g → g.url = o.url →
        mapLookup (syncSceneObjects objs st).sceneObjectMap o.id =
          some (applySceneObjectTransform o g)) ∧
    (∀ (envs : List EnvironmentItem) (st : EnvSync) (e : EnvironmentItem)
        (a : EnvAnchor),
        (envs.map (·.id)).Nodup → e ∈ envs →
        mapLookup st.envObjectMap e.id = some a →
        mapLookup (syncEnvironments envs st).envObjectMap e.id =
          some (applyEnvironmentTransform e a)) ∧
    (∀ (fleet : List CarConfig) (st : FleetSync) (c : CarConfig) (g : CarGroup),
        (fleet.map (·.id)).Nodup → (mapKeys st.carMap).Nodup → c ∈ fleet →
        mapLookup st.carMap c.id = some g → g.modelUrl = c.modelUrl →
        mapLookup (syncFleet fleet st).carMap c.id = some g) :=
  ⟨fun objs st k => syncSceneObjects_isSome_iff objs st k,
   fun fleet st k => syncFleet_car_isSome_iff fleet st k,
   fun envs st k hurl => syncEnvironments_isSome_iff envs st k hurl,
   fun objs st o g hnd hmem hl hu =>
     syncSceneObjects_inplace objs st o g hnd hmem hl hu,
   fun envs st e a hnd hmem hl =>
     syncEnvironments_inplace envs st e a hnd hmem hl,
   fun fleet st c g hndf hndk hmem hl hu =>
     syncFleet_car_kept fleet st c g hndf hndk hmem hl hu⟩

/-- Witness for C1: one nonempty-url environment reconciled into an empty
scene yields exactly its id live. -/
theorem C1_reconcile_amended_witness :
    (∀ e ∈ [envA], e.url ≠ "") ∧
      ((mapLookup (syncEnvironments [envA] emptyEnvSync).envObjectMap
          "e1").isSome ↔ "e1" ∈ [envA].map (·.id)) :=
  ⟨by decide, C1_reconcile_amended.2.2.1 [envA] emptyEnvSync "e1" (by decide)⟩

-- ---------------------------------------------------------------------------
-- C2: url identity and subtree reuse
-- ---------------------------------------------------------------------------

/-- C2 counterexample: syncEnvironments never compares urls.  Reconciling id
e1 first with url a.glb and then with url b.glb leaves the original anchor
(creation nonce 0) in the live map, transform reapplied in place — no
removal, no recreation — refuting the claimed full reload on url change for
the environment collection. -/
theorem C2_reload_cex :
    envA.url ≠ envB.url ∧
      mapLookup (syncEnvironments [envA] emptyEnvSync).envObjectMap "e1" =
        some ⟨0, ⟨1, 1, 1⟩, Vec3.zero, false⟩ ∧
      mapLookup (syncEnvironments [envB]
          (syncEnvironments [envA] emptyEnvSync)).envObjectMap "e1" =
        some ⟨0, ⟨1, 1, 1⟩, Vec3.zero, false⟩ := by
  exact ⟨by decide, rfl, rfl⟩

/-- C2 amended: for the scene-object and vehicle collections a surviving id
whose recorded url differs from the configured one is fully reloaded (the
live map ends up with a freshly created subtree, new creation nonce, new url
recorded), and with an unchanged url the vehicle group is left untouched
while its cached material set is updated in place (same material objects,
new scalar paint parameters).  The environment collection is the exception:
its reconciler never compares urls and updates a surviving id in place even
when the url changed — an environment reload requires remove plus re-add. -/
theorem C2_reload_amended :
    (∀ (objs : List SceneObject) (st : ObjSync) (o : SceneObject)
        (g : SceneAnchor),
        (∀ kv ∈ st.sceneObjectMap, kv.2.gen < st.nextGen) →
        (objs.map (·.id)).Nodup → o ∈ objs →
        mapLookup st.sceneObjectMap o.id = some g → g.url ≠ o.url →
        ∃ g2 : SceneAnchor,
          mapLookup (syncSceneObjects objs st).sceneObjectMap o.id = some g2 ∧
          g2.url = o.url ∧ g2.gen ≠ g.gen) ∧
    (∀ (fleet : List CarConfig) (st : FleetSync) (c : CarConfig)
        (g : CarGroup),
        (∀ kv ∈ st.carMap, kv.2.gen < st.nextGen) →
        (fleet.map (·.id)).Nodup → (mapKeys st.carMap).Nodup → c ∈ fleet →
        mapLookup st.carMap c.id = some g → g.modelUrl ≠ c.modelUrl →
        ∃ g2 : CarGroup,
          mapLookup (syncFleet fleet st).carMap c.id = some g2 ∧
          g2.modelUrl = c.modelUrl ∧ g2.gen ≠ g.gen) ∧
    (∀ (fleet : List CarConfig) (st : FleetSync) (c : CarConfig)
        (g : CarGroup) (m0 : CarMats),
        (fleet.map (·.id)).Nodup → (mapKeys st.carMap).Nodup →
        (mapKeys st.materialsMap).Nodup → c ∈ fleet →
        mapLookup st.carMap c.id = some g → g.modelUrl = c.modelUrl →
        mapLookup st.materialsMap c.id = some m0 →
        mapLookup (syncFleet fleet st).carMap c.id = some g ∧
        ∃ m : CarMats,
          mapLookup (syncFleet fleet st).materialsMap c.id = some m ∧
          m.color = c.color ∧ m.metalness = c.metalness ∧
          m.roughness = c.roughness ∧ m.gen = m0.gen) ∧
    (∀ (envs : List EnvironmentItem) (st : EnvSync) (e : EnvironmentItem)
        (a : EnvAnchor),
        (envs.map (·.id)).Nodup → e ∈ envs →
        mapLookup st.envObjectMap e.id = some a →
        mapLookup (syncEnvironments envs st).envObjectMap e.id =
          some (applyEnvironmentTransform e a) ∧
        (applyEnvironmentTransform e a).gen = a.gen) :=
  ⟨fun objs st o g hwf hnd hmem hl hu =>
     syncSceneObjects_reload objs st o g hwf hnd hmem hl hu,
   fun fleet st c g hwf hndf hndk hmem hl hu =>
     syncFleet_reload fleet st c g hwf hndf hndk hmem hl hu,
   fun fleet st c g m0 hndf hndk hndm hmem hl hu hlm =>
     ⟨syncFleet_car_kept fleet st c g hndf hndk hmem hl hu,
      syncFleet_mats_kept fleet st c g m0 hndf hndm hmem hl hu hlm⟩,
   fun envs st e a hnd hmem hl =>
     ⟨syncEnvironments_inplace envs st e a hnd hmem hl, rfl⟩⟩

/-- Witness for C2: reconciling id o1 from url a.glb to url b.glb recreates
the scene-object anchor. -/
theorem C2_reload_amended_witness :
    (∀ kv ∈ (syncSceneObjects [objA] emptyObjSync).sceneObjectMap,
        kv.2.gen < (syncSceneObjects [objA] emptyObjSync).nextGen) ∧
      (([objB].map (·.id)).Nodup) ∧
      mapLookup (syncSceneObjects [objA] emptyObjSync).sceneObjectMap "o1" =
        some ⟨0, "a.glb", Vec3.zero, Vec3.zero, ⟨1, 1, 1⟩, false⟩ ∧
      (∃ g2 : SceneAnchor,
        mapLookup (syncSceneObjects [objB]
            (syncSceneObjects [objA] emptyObjSync)).sceneObjectMap "o1" =
          some g2 ∧ g2.url = objB.url ∧
          g2.gen ≠ (⟨0, "a.glb", Vec3.zero, Vec3.zero, ⟨1, 1, 1⟩, false⟩ :
            SceneAnchor).gen) :=
  ⟨by decide, by decide, rfl,
   C2_reload_amended.1 [objB] (syncSceneObjects [objA] emptyObjSync) objB
     ⟨0, "a.glb", Vec3.zero, Vec3.zero, ⟨1, 1, 1⟩, false⟩
     (by decide) (by decide) (List.mem_singleton.mpr rfl) rfl (by decide)⟩

-- ---------------------------------------------------------------------------
-- C6: stale async completions
-- ---------------------------------------------------------------------------

theorem getOrCreateMaterials_carMap (k : String) (st : FleetSync) :
    (getOrCreateMaterials k st).2.carMap = st.carMap := by
  unfold getOrCreateMaterials
  cases hm : mapLookup st.materialsMap k <;> rfl

/-- C6 counterexample: a vehicle model completion whose id c1 is no longer in
the live car map still attaches the loaded model to its captured group and
re-populates the material cache for the dead id — the createCarGroup
completion performs no liveness re-check, refuting the claim that every
completion re-checks that its id is still live before attaching content. -/
theorem C6_stale_completion_cex :
    mapLookup deadFleetState.carMap "c1" = none ∧
      (carLoadComplete carA staleCarGroup (some "other")
          deadFleetState).group.hasModel = true ∧
      (mapLookup (carLoadComplete carA staleCarGroup (some "other")
          deadFleetState).state.materialsMap "c1").isSome = true := by
  exact ⟨rfl, rfl, rfl⟩

/-- C6 amended: the environment and scene-object completions re-check the
live map and, when their id has been removed, change nothing — neither the
live state nor the captured anchor.  The vehicle completion has no liveness
re-check: it always attaches the model to its captured group and it re-runs
the part analysis exactly when the active car id equals its captured config
id (with distinct fleet ids a fully removed id is never the active one, so
the classification is not clobbered, but the attach itself is unguarded);
entries of the live car map under other ids are never touched. -/
theorem C6_stale_completion_amended :
    (∀ (envId : String) (captured : EnvAnchor) (st : EnvSync),
        mapLookup st.envObjectMap envId = none →
        envLoadComplete envId captured st = (st, captured)) ∧
    (∀ (objId : String) (captured : SceneAnchor) (st : ObjSync),
        mapLookup st.sceneObjectMap objId = none →
        objLoadComplete objId captured st = (st, captured)) ∧
    (∀ (c : CarConfig) (captured : CarGroup) (activeId : Option String)
        (st : FleetSync),
        (carLoadComplete c captured activeId st).group.hasModel = true ∧
        ((carLoadComplete c captured activeId st).analyzedGen =
            some captured.gen ↔ activeId = some c.id) ∧
        (∀ k, k ≠ c.id →
          mapLookup (carLoadComplete c captured activeId st).state.carMap k =
            mapLookup st.carMap k)) := by
  refine ⟨?_, ?_, ?_⟩
  · intro envId captured st h
    unfold envLoadComplete
    rw [if_neg (by rw [h]; simp)]
  · intro objId captured st h
    unfold objLoadComplete
    rw [if_neg (by rw [h]; simp)]
  · intro c captured activeId st
    refine ⟨rfl, ?_, ?_⟩
    · by_cases ha : activeId = some c.id
      · simp [carLoadComplete, ha]
      · simp [carLoadComplete, ha]
    · intro k hk
      show mapLookup ((getOrCreateMaterials c.id st).2.carMap.map (fun kv =>
          if kv.1 = c.id ∧ kv.2.gen = captured.gen then
            (kv.1, { kv.2 with hasModel := true })
          else kv)) k = mapLookup st.carMap k
      rw [getOrCreateMaterials_carMap c.id st]
      rw [mapLookup_map_keyFix st.carMap _ k (by
        intro kv
        by_cases hc : kv.1 = c.id ∧ kv.2.gen = captured.gen
        · rw [if_pos hc]
        · rw [if_neg hc])]
      cases hv : mapLookup st.carMap k with
      | none => rfl
      | some v =>
        dsimp only
        rw [if_neg (fun hc => hk hc.1)]

/-- Witness for C6 at a concrete stale environment completion: id e9 is not
live, so the handler leaves both the state and the captured anchor alone. -/
theorem C6_stale_completion_amended_witness :
    mapLookup emptyEnvSync.envObjectMap "e9" = none ∧
      envLoadComplete "e9" ⟨0, Vec3.zero, Vec3.zero, false⟩ emptyEnvSync =
        (emptyEnvSync, ⟨0, Vec3.zero, Vec3.zero, false⟩) :=
  ⟨rfl, C6_stale_completion_amended.1 "e9" ⟨0, Vec3.zero, Vec3.zero, false⟩
    emptyEnvSync rfl⟩
